import Mathlib

/-!
Package `bloomskyStructure` of bloomsky-api-go (`bloomskyStructure.go`).

A shallow embedding of the retrieval-and-normalisation pipeline of
`bloomskyStructure.go` and theorems about it.

* `float64` is modelled exactly: a value is a NaN, a signed infinity or a signed
  finite magnitude (a rational number), and every arithmetic operation computes
  the exact rational result and rounds it to the nearest binary64 value, ties to
  even (`F64.ofRat`).  Operations are not fused, and `int` is 64 bits wide
  (the `amd64` target).
* `encoding/json` is modelled on JSON values (`JVal`): a body is empty, is
  some other byte string that is not a JSON text, or is the text of a JSON value.
* `log.Fatalf` ends the process; an index out of range panics.  Both are
  outcomes of `NewBloomskyFromBody` (`Outcome`).
-/

namespace Bloomsky

/-! ## binary64 arithmetic -/

/-- The rational `2 ^ z` for an integer exponent `z`. -/
def pow2 (z : Int) : ℚ :=
  if 0 ≤ z then ((2 ^ z.toNat : Nat) : ℚ) else 1 / ((2 ^ (-z).toNat : Nat) : ℚ)

/-- The number of binary digits of `n`, computed by halving at most `fuel` times. -/
def bitLength : Nat → Nat → Nat
  | 0, _ => 0
  | fuel + 1, n => if n = 0 then 0 else bitLength fuel (n / 2) + 1

/-- The number of binary digits of `n` (`0` for `n = 0`). -/
def bits (n : Nat) : Nat := bitLength n n

/-- For `0 < q`, the integer `e` with `2 ^ e ≤ q < 2 ^ (e + 1)`. -/
def ilog2 (q : ℚ) : Int :=
  let a : Int := (bits q.num.natAbs : Int) - (bits q.den : Int)
  if pow2 a ≤ q then a else a - 1

/-- Round a non-negative rational to the nearest natural number, ties to even. -/
def rne (q : ℚ) : Nat :=
  let f : Nat := q.floor.toNat
  let r : ℚ := q - (f : ℚ)
  if r < 1 / 2 then f else if 1 / 2 < r then f + 1 else if f % 2 = 0 then f else f + 1

/-- A `float64`: NaN, a signed infinity, or a signed finite magnitude
(`fin neg mag` is the number `(-1) ^ neg * mag`, so both zeros exist). -/
inductive F64
  | nan
  | inf (neg : Bool)
  | fin (neg : Bool) (mag : ℚ)
deriving DecidableEq

namespace F64

/-- Round the magnitude `q ≥ 0` to binary64 (round to nearest, ties to even;
53-bit significand, exponents `-1022 .. 1023`, gradual underflow, overflow to
infinity) and attach the sign. -/
def ofRat (neg : Bool) (q : ℚ) : F64 :=
  if q ≤ 0 then .fin neg 0 else
  let e := max (ilog2 q) (-1022)
  let ulp := pow2 (e - 52)
  let r := (rne (q / ulp) : ℚ) * ulp
  if pow2 1024 ≤ r then .inf neg else .fin neg r

/-- The rational `m * 10 ^ e` denoted by a decimal literal. -/
def decimal (m : Nat) (e : Int) : ℚ :=
  if 0 ≤ e then ((m * 10 ^ e.toNat : Nat) : ℚ) else (m : ℚ) / ((10 ^ (-e).toNat : Nat) : ℚ)

/-- A floating-point constant of the program text, `m * 10 ^ e` rounded to `float64`. -/
def lit (neg : Bool) (m : Nat) (e : Int) : F64 := ofRat neg (decimal m e)

/-- Whether the value is neither NaN nor an infinity. -/
def isFinite : F64 → Bool
  | .fin _ _ => true
  | _ => false

/-- The sign bit (NaN is given a clear sign bit). -/
def signbit : F64 → Bool
  | .nan => false
  | .inf s => s
  | .fin s _ => s

/-- Unary minus. -/
def neg : F64 → F64
  | .nan => .nan
  | .inf s => .inf (!s)
  | .fin s m => .fin (!s) m

/-- IEEE 754 addition `x + y`. -/
def add : F64 → F64 → F64
  | .nan, _ => .nan
  | _, .nan => .nan
  | .inf s, .inf t => if s = t then .inf s else .nan
  | .inf s, .fin _ _ => .inf s
  | .fin _ _, .inf t => .inf t
  | .fin s a, .fin t b =>
    if s = t then ofRat s (a + b)
    else if b < a then ofRat s (a - b)
    else if a < b then ofRat t (b - a)
    else .fin false 0

/-- IEEE 754 subtraction `x - y`. -/
def sub (x y : F64) : F64 := add x (neg y)

/-- IEEE 754 multiplication `x * y`. -/
def mul : F64 → F64 → F64
  | .nan, _ => .nan
  | _, .nan => .nan
  | .inf s, .inf t => .inf (xor s t)
  | .inf s, .fin t b => if b = 0 then .nan else .inf (xor s t)
  | .fin s a, .inf t => if a = 0 then .nan else .inf (xor s t)
  | .fin s a, .fin t b => ofRat (xor s t) (a * b)

/-- IEEE 754 division `x / y` (a float division by zero does not panic in Go). -/
def div : F64 → F64 → F64
  | .nan, _ => .nan
  | _, .nan => .nan
  | .inf _, .inf _ => .nan
  | .inf s, .fin t _ => .inf (xor s t)
  | .fin s _, .inf t => .fin (xor s t) 0
  | .fin s a, .fin t b =>
    if b = 0 then (if a = 0 then .nan else .inf (xor s t))
    else ofRat (xor s t) (a / b)

/-- The conversion `float64(i)` of an `int`. -/
def ofInt (i : Int) : F64 := ofRat (decide (i < 0)) (i.natAbs : ℚ)

/-- The conversion `int(x)`: truncation toward zero.  When the truncated value
is not an `int64`, or `x` is NaN or an infinity, Go leaves the result to the
implementation; `amd64` yields the smallest `int64`. -/
def toInt : F64 → Int
  | .fin s m =>
    let t : Int := m.floor
    let v : Int := if s then -t else t
    if -(2 ^ 63 : Int) ≤ v ∧ v < (2 ^ 63 : Int) then v else -(2 ^ 63 : Int)
  | _ => -(2 ^ 63 : Int)

/-- The call `math.Copysign(0.5, x)`. -/
def copysignHalf (x : F64) : F64 := .fin x.signbit (1 / 2)

/-- The call `math.Pow(10, float64(n))` for an `int` `n`: the power of ten rounded
to `float64` (exact for `0 ≤ n ≤ 22`; the program only uses `n = 2`). -/
def pow10 (n : Int) : F64 := ofRat false (decimal 1 n)

end F64

/-! ## `round` and `toFixed` -/

/-- Source `round`: `int(num + math.Copysign(0.5, num))`. -/
def round (num : F64) : Int :=
  F64.toInt (F64.add num (F64.copysignHalf num))

/-- Source `toFixed`: `output := math.Pow(10, float64(precision))`,
`float64(round(num * output)) / output`. -/
def toFixed (num : F64) (precision : Int) : F64 :=
  let output := F64.pow10 precision
  F64.div (F64.ofInt (round (F64.mul num output))) output

/-! ## The record -/

/-- Source `BloomskyStormStructure`. -/
structure BloomskyStormStructure where
  UVIndex : String
  WindDirection : String
  WindGust : F64
  WindGustms : F64
  WindGustkmh : F64
  SustainedWindSpeed : F64
  SustainedWindSpeedms : F64
  SustainedWindSpeedkmh : F64
  Rain : F64
  RainDaily : F64
  RainDailymm : F64
  RainRate : F64
  RainRatemm : F64
  Rainin : F64
  Rainmm : F64
deriving DecidableEq

/-- Source `BloomskyDataStructure`. -/
structure BloomskyDataStructure where
  Luminance : F64
  TemperatureF : F64
  TemperatureC : F64
  ImageURL : String
  TS : F64
  Rain : Bool
  Humidity : F64
  Pressure : F64
  Pressurehpa : F64
  DeviceType : String
  Voltage : F64
  Night : Bool
  UVIndex : F64
  ImageTS : F64
deriving DecidableEq

/-- A value held by a Go `interface{}` after `json.Unmarshal`: `nil`, `bool`,
`float64`, `string`, `[]interface{}` or `map[string]interface{}` (the map is kept
as the list of its keys in order of first appearance). -/
inductive GoAny
  | nil
  | bool (b : Bool)
  | float64 (x : F64)
  | string (s : String)
  | slice (xs : List GoAny)
  | map (kvs : List (String × GoAny))

/-- Source `BloomskyStructure`.  A `[]string` is `none` when it is the nil slice. -/
structure BloomskyStructure where
  UTC : F64
  CityName : String
  Storm : BloomskyStormStructure
  Searchable : Bool
  DeviceName : String
  RegisterTime : F64
  DST : F64
  BoundedPoint : String
  LON : F64
  Point : GoAny
  VideoList : Option (List String)
  VideoListC : Option (List String)
  DeviceID : String
  NumOfFollowers : F64
  LAT : F64
  ALT : F64
  Data : BloomskyDataStructure
  FullAddress : String
  StreetName : String
  PreviewImageList : Option (List String)
  LastCall : String

/-- The `float64` zero value `+0`. -/
def F64.zero : F64 := .fin false 0

/-- The zero value of `BloomskyStormStructure`. -/
def BloomskyStormStructure.zero : BloomskyStormStructure :=
  { UVIndex := "", WindDirection := "", WindGust := F64.zero, WindGustms := F64.zero,
    WindGustkmh := F64.zero, SustainedWindSpeed := F64.zero, SustainedWindSpeedms := F64.zero,
    SustainedWindSpeedkmh := F64.zero, Rain := F64.zero, RainDaily := F64.zero,
    RainDailymm := F64.zero, RainRate := F64.zero, RainRatemm := F64.zero,
    Rainin := F64.zero, Rainmm := F64.zero }

/-- The zero value of `BloomskyDataStructure`. -/
def BloomskyDataStructure.zero : BloomskyDataStructure :=
  { Luminance := F64.zero, TemperatureF := F64.zero, TemperatureC := F64.zero, ImageURL := "",
    TS := F64.zero, Rain := false, Humidity := F64.zero, Pressure := F64.zero,
    Pressurehpa := F64.zero, DeviceType := "", Voltage := F64.zero, Night := false,
    UVIndex := F64.zero, ImageTS := F64.zero }

/-- The zero value of `BloomskyStructure`. -/
def BloomskyStructure.zero : BloomskyStructure :=
  { UTC := F64.zero, CityName := "", Storm := BloomskyStormStructure.zero, Searchable := false,
    DeviceName := "", RegisterTime := F64.zero, DST := F64.zero, BoundedPoint := "",
    LON := F64.zero, Point := GoAny.nil, VideoList := none, VideoListC := none, DeviceID := "",
    NumOfFollowers := F64.zero, LAT := F64.zero, ALT := F64.zero,
    Data := BloomskyDataStructure.zero, FullAddress := "", StreetName := "",
    PreviewImageList := none, LastCall := "" }

/-! ## Accessors -/

/-- Source `GetWindGustMph`. -/
def BloomskyStructure.GetWindGustMph (bloomskyInfo : BloomskyStructure) : F64 :=
  bloomskyInfo.Storm.WindGust

/-- Source `GetWindGustMs`: `Storm.WindGust * 1.61`. -/
def BloomskyStructure.GetWindGustMs (bloomskyInfo : BloomskyStructure) : F64 :=
  F64.mul bloomskyInfo.Storm.WindGust (F64.lit false 161 (-2))

/-- Source `GetSustainedWindSpeedMph`. -/
def BloomskyStructure.GetSustainedWindSpeedMph (bloomskyInfo : BloomskyStructure) : F64 :=
  bloomskyInfo.Storm.SustainedWindSpeed

/-- Source `GetSustainedWindSpeedMs`: `Storm.SustainedWindSpeed * 1.61`. -/
def BloomskyStructure.GetSustainedWindSpeedMs (bloomskyInfo : BloomskyStructure) : F64 :=
  F64.mul bloomskyInfo.Storm.SustainedWindSpeed (F64.lit false 161 (-2))

/-- Source `GetRainDailyIn`. -/
def BloomskyStructure.GetRainDailyIn (bloomskyInfo : BloomskyStructure) : F64 :=
  bloomskyInfo.Storm.RainDaily

/-- Source `GetRainIn`. -/
def BloomskyStructure.GetRainIn (bloomskyInfo : BloomskyStructure) : F64 :=
  bloomskyInfo.Storm.Rainin

/-- Source `GetRainRateIn`. -/
def BloomskyStructure.GetRainRateIn (bloomskyInfo : BloomskyStructure) : F64 :=
  bloomskyInfo.Storm.RainRate

/-- Source `GetRainDailyMm` (documented "returns rain daily in mm"): returns
`Storm.RainDaily`. -/
def BloomskyStructure.GetRainDailyMm (bloomskyInfo : BloomskyStructure) : F64 :=
  bloomskyInfo.Storm.RainDaily

/-- Source `GetRainMm` (documented "returns total rain in mm"): returns `Storm.Rainmm`. -/
def BloomskyStructure.GetRainMm (bloomskyInfo : BloomskyStructure) : F64 :=
  bloomskyInfo.Storm.Rainmm

/-- Source `GetRainRateMm` (documented "returns rain in mm"): returns `Storm.RainRate`. -/
def BloomskyStructure.GetRainRateMm (bloomskyInfo : BloomskyStructure) : F64 :=
  bloomskyInfo.Storm.RainRate

/-- Source `GetSustainedWindSpeedkmh`. -/
def BloomskyStructure.GetSustainedWindSpeedkmh (bloomskyInfo : BloomskyStructure) : F64 :=
  bloomskyInfo.Storm.SustainedWindSpeedkmh

/-- Source `GetWindGustkmh`. -/
def BloomskyStructure.GetWindGustkmh (bloomskyInfo : BloomskyStructure) : F64 :=
  bloomskyInfo.Storm.WindGustkmh

/-- Source `GetTemperatureFahrenheit`. -/
def BloomskyStructure.GetTemperatureFahrenheit (bloomskyInfo : BloomskyStructure) : F64 :=
  bloomskyInfo.Data.TemperatureF

/-- Source `GetTemperatureCelsius`. -/
def BloomskyStructure.GetTemperatureCelsius (bloomskyInfo : BloomskyStructure) : F64 :=
  bloomskyInfo.Data.TemperatureC

/-- Source `GetPressureHPa`. -/
def BloomskyStructure.GetPressureHPa (bloomskyInfo : BloomskyStructure) : F64 :=
  bloomskyInfo.Data.Pressurehpa

/-! ## `encoding/json` -/

/-- A JSON value.  The number `num neg m e` is the literal `(-1) ^ neg * m * 10 ^ e`
(every JSON number literal has this form). -/
inductive JVal
  | null
  | bool (b : Bool)
  | num (neg : Bool) (m : Nat) (e : Int)
  | str (s : String)
  | arr (xs : List JVal)
  | obj (kvs : List (String × JVal))

/-- The bytes handed to `json.Unmarshal`: no bytes at all, some other byte string
that is not a JSON text, or the text of the JSON value `v`. -/
inductive Payload
  | empty
  | malformed
  | text (v : JVal)

/-- The call `strconv.ParseFloat(s, 64)` on a JSON number literal: the nearest
`float64`, or a range error when that is an infinity. -/
def parseFloat (neg : Bool) (m : Nat) (e : Int) : Except String F64 :=
  match F64.ofRat neg (F64.decimal m e) with
  | .fin s q => .ok (.fin s q)
  | _ => .error "json: cannot unmarshal number into Go value of type float64"

/-- Decode into a `float64`: `null` leaves the value alone, a number is parsed,
anything else is an `UnmarshalTypeError`. -/
def decodeFloat (cur : F64) : JVal → Except String F64
  | .null => .ok cur
  | .num neg m e => parseFloat neg m e
  | _ => .error "json: cannot unmarshal into Go value of type float64"

/-- Decode into a `string`. -/
def decodeString (cur : String) : JVal → Except String String
  | .null => .ok cur
  | .str s => .ok s
  | _ => .error "json: cannot unmarshal into Go value of type string"

/-- Decode into a `bool`. -/
def decodeBool (cur : Bool) : JVal → Except String Bool
  | .null => .ok cur
  | .bool b => .ok b
  | _ => .error "json: cannot unmarshal into Go value of type bool"

/-- Decode the elements of a JSON array into a `[]string`; an element already
present in the slice is decoded into in place. -/
def decodeStringElems : List String → List JVal → Except String (List String)
  | _, [] => .ok []
  | cur, x :: xs =>
    match decodeString (cur.headD "") x with
    | .error err => .error err
    | .ok s =>
      match decodeStringElems cur.tail xs with
      | .error err => .error err
      | .ok rest => .ok (s :: rest)

/-- Decode into a `[]string`: `null` gives the nil slice. -/
def decodeStrings (cur : Option (List String)) : JVal → Except String (Option (List String))
  | .null => .ok none
  | .arr xs =>
    match decodeStringElems (cur.getD []) xs with
    | .error err => .error err
    | .ok ss => .ok (some ss)
  | _ => .error "json: cannot unmarshal into Go value of type []string"

/-- Store `v` under the key `k` of a Go map held as a list. -/
def mapInsert (k : String) (v : GoAny) : List (String × GoAny) → List (String × GoAny)
  | [] => [(k, v)]
  | (k0, v0) :: rest => if k0 = k then (k, v) :: rest else (k0, v0) :: mapInsert k v rest

mutual
/-- Decode into an `interface{}`: the value is replaced by the generic decoding
of the JSON value. -/
def decodeAny : JVal → Except String GoAny
  | .null => .ok .nil
  | .bool b => .ok (.bool b)
  | .num neg m e =>
    match parseFloat neg m e with
    | .error err => .error err
    | .ok x => .ok (.float64 x)
  | .str s => .ok (.string s)
  | .arr xs =>
    match decodeAnyList xs with
    | .error err => .error err
    | .ok ys => .ok (.slice ys)
  | .obj kvs =>
    match decodeAnyMembers [] kvs with
    | .error err => .error err
    | .ok m => .ok (.map m)
/-- Generic decoding of the elements of a JSON array. -/
def decodeAnyList : List JVal → Except String (List GoAny)
  | [] => .ok []
  | x :: xs =>
    match decodeAny x with
    | .error err => .error err
    | .ok y =>
      match decodeAnyList xs with
      | .error err => .error err
      | .ok ys => .ok (y :: ys)
/-- Generic decoding of the members of a JSON object into the map `acc`. -/
def decodeAnyMembers (acc : List (String × GoAny)) :
    List (String × JVal) → Except String (List (String × GoAny))
  | [] => .ok acc
  | (k, x) :: kvs =>
    match decodeAny x with
    | .error err => .error err
    | .ok y => decodeAnyMembers (mapInsert k y acc) kvs
end

/-- Case folding of one character of an object key, as `encoding/json` does when
it looks for the struct field of a key: ASCII letters ignore case, and the long s
(U+017F) and the Kelvin sign (U+212A) fold to `S` and `K`. -/
def foldRune (c : Char) : Char :=
  if 'a' ≤ c ∧ c ≤ 'z' then Char.ofNat (c.toNat - 32)
  else if c = Char.ofNat 0x017F then 'S'
  else if c = Char.ofNat 0x212A then 'K'
  else c

/-- An object key with its characters folded. -/
def foldName (s : String) : List Char := s.data.map foldRune

/-- Whether the object key `key` selects the struct field whose JSON name is `name`
(an exact match or a match under case folding; the JSON names of each struct of
this program are pairwise different under folding). -/
def keyIs (key name : String) : Bool := decide (foldName key = foldName name)

/-- Decode the members of a JSON object one after the other with `set`. -/
def decodeMembers {α : Type} (set : α → String → JVal → Except String α) :
    α → List (String × JVal) → Except String α
  | cur, [] => .ok cur
  | cur, (k, v) :: rest =>
    match set cur k v with
    | .error err => .error err
    | .ok next => decodeMembers set next rest

/-- Decode into a struct: `null` leaves it alone, an object sets its fields, anything
else is an `UnmarshalTypeError`. -/
def decodeStruct {α : Type} (set : α → String → JVal → Except String α) (cur : α) :
    JVal → Except String α
  | .null => .ok cur
  | .obj kvs => decodeMembers set cur kvs
  | _ => .error "json: cannot unmarshal into Go value of struct type"

/-- Decode one member of a `Storm` object.  Fields without a tag take their Go
name; a key that names no field is skipped. -/
def BloomskyStormStructure.setField (s : BloomskyStormStructure) (key : String) (v : JVal) :
    Except String BloomskyStormStructure :=
  if keyIs key "UVIndex" then
    (decodeString s.UVIndex v).map fun x => { s with UVIndex := x }
  else if keyIs key "WindDirection" then
    (decodeString s.WindDirection v).map fun x => { s with WindDirection := x }
  else if keyIs key "WindGust" then
    (decodeFloat s.WindGust v).map fun x => { s with WindGust := x }
  else if keyIs key "WindGustms" then
    (decodeFloat s.WindGustms v).map fun x => { s with WindGustms := x }
  else if keyIs key "WindGustkmh" then
    (decodeFloat s.WindGustkmh v).map fun x => { s with WindGustkmh := x }
  else if keyIs key "SustainedWindSpeed" then
    (decodeFloat s.SustainedWindSpeed v).map fun x => { s with SustainedWindSpeed := x }
  else if keyIs key "SustainedWindSpeedms" then
    (decodeFloat s.SustainedWindSpeedms v).map fun x => { s with SustainedWindSpeedms := x }
  else if keyIs key "SustainedWindSpeedkmh" then
    (decodeFloat s.SustainedWindSpeedkmh v).map fun x => { s with SustainedWindSpeedkmh := x }
  else if keyIs key "Rain" then
    (decodeFloat s.Rain v).map fun x => { s with Rain := x }
  else if keyIs key "RainDaily" then
    (decodeFloat s.RainDaily v).map fun x => { s with RainDaily := x }
  else if keyIs key "RainDailymm" then
    (decodeFloat s.RainDailymm v).map fun x => { s with RainDailymm := x }
  else if keyIs key "RainRate" then
    (decodeFloat s.RainRate v).map fun x => { s with RainRate := x }
  else if keyIs key "RainRatemm" then
    (decodeFloat s.RainRatemm v).map fun x => { s with RainRatemm := x }
  else if keyIs key "24hRain" then
    (decodeFloat s.Rainin v).map fun x => { s with Rainin := x }
  else if keyIs key "Rainmm" then
    (decodeFloat s.Rainmm v).map fun x => { s with Rainmm := x }
  else .ok s

/-- Decode one member of a `Data` object. -/
def BloomskyDataStructure.setField (d : BloomskyDataStructure) (key : String) (v : JVal) :
    Except String BloomskyDataStructure :=
  if keyIs key "Luminance" then
    (decodeFloat d.Luminance v).map fun x => { d with Luminance := x }
  else if keyIs key "Temperature" then
    (decodeFloat d.TemperatureF v).map fun x => { d with TemperatureF := x }
  else if keyIs key "TemperatureC" then
    (decodeFloat d.TemperatureC v).map fun x => { d with TemperatureC := x }
  else if keyIs key "ImageURL" then
    (decodeString d.ImageURL v).map fun x => { d with ImageURL := x }
  else if keyIs key "TS" then
    (decodeFloat d.TS v).map fun x => { d with TS := x }
  else if keyIs key "Rain" then
    (decodeBool d.Rain v).map fun x => { d with Rain := x }
  else if keyIs key "Humidity" then
    (decodeFloat d.Humidity v).map fun x => { d with Humidity := x }
  else if keyIs key "Pressure" then
    (decodeFloat d.Pressure v).map fun x => { d with Pressure := x }
  else if keyIs key "Pressurehpa" then
    (decodeFloat d.Pressurehpa v).map fun x => { d with Pressurehpa := x }
  else if keyIs key "DeviceType" then
    (decodeString d.DeviceType v).map fun x => { d with DeviceType := x }
  else if keyIs key "Voltage" then
    (decodeFloat d.Voltage v).map fun x => { d with Voltage := x }
  else if keyIs key "Night" then
    (decodeBool d.Night v).map fun x => { d with Night := x }
  else if keyIs key "UVIndex" then
    (decodeFloat d.UVIndex v).map fun x => { d with UVIndex := x }
  else if keyIs key "ImageTS" then
    (decodeFloat d.ImageTS v).map fun x => { d with ImageTS := x }
  else .ok d

/-- Decode one member of a snapshot object. -/
def BloomskyStructure.setField (b : BloomskyStructure) (key : String) (v : JVal) :
    Except String BloomskyStructure :=
  if keyIs key "UTC" then
    (decodeFloat b.UTC v).map fun x => { b with UTC := x }
  else if keyIs key "CityName" then
    (decodeString b.CityName v).map fun x => { b with CityName := x }
  else if keyIs key "Storm" then
    (decodeStruct BloomskyStormStructure.setField b.Storm v).map fun x => { b with Storm := x }
  else if keyIs key "Searchable" then
    (decodeBool b.Searchable v).map fun x => { b with Searchable := x }
  else if keyIs key "DeviceName" then
    (decodeString b.DeviceName v).map fun x => { b with DeviceName := x }
  else if keyIs key "RegisterTime" then
    (decodeFloat b.RegisterTime v).map fun x => { b with RegisterTime := x }
  else if keyIs key "DST" then
    (decodeFloat b.DST v).map fun x => { b with DST := x }
  else if keyIs key "BoundedPoint" then
    (decodeString b.BoundedPoint v).map fun x => { b with BoundedPoint := x }
  else if keyIs key "LON" then
    (decodeFloat b.LON v).map fun x => { b with LON := x }
  else if keyIs key "Point" then
    (decodeAny v).map fun x => { b with Point := x }
  else if keyIs key "VideoList" then
    (decodeStrings b.VideoList v).map fun x => { b with VideoList := x }
  else if keyIs key "VideoList_C" then
    (decodeStrings b.VideoListC v).map fun x => { b with VideoListC := x }
  else if keyIs key "DeviceID" then
    (decodeString b.DeviceID v).map fun x => { b with DeviceID := x }
  else if keyIs key "NumOfFollowers" then
    (decodeFloat b.NumOfFollowers v).map fun x => { b with NumOfFollowers := x }
  else if keyIs key "LAT" then
    (decodeFloat b.LAT v).map fun x => { b with LAT := x }
  else if keyIs key "ALT" then
    (decodeFloat b.ALT v).map fun x => { b with ALT := x }
  else if keyIs key "Data" then
    (decodeStruct BloomskyDataStructure.setField b.Data v).map fun x => { b with Data := x }
  else if keyIs key "FullAddress" then
    (decodeString b.FullAddress v).map fun x => { b with FullAddress := x }
  else if keyIs key "StreetName" then
    (decodeString b.StreetName v).map fun x => { b with StreetName := x }
  else if keyIs key "PreviewImageList" then
    (decodeStrings b.PreviewImageList v).map fun x => { b with PreviewImageList := x }
  else if keyIs key "LastCall" then
    (decodeString b.LastCall v).map fun x => { b with LastCall := x }
  else .ok b

/-- Decode the elements of the top-level array, each into a zero snapshot. -/
def decodeSnapshots : List JVal → Except String (List BloomskyStructure)
  | [] => .ok []
  | x :: xs =>
    match decodeStruct BloomskyStructure.setField BloomskyStructure.zero x with
    | .error err => .error err
    | .ok b =>
      match decodeSnapshots xs with
      | .error err => .error err
      | .ok bs => .ok (b :: bs)

/-- The call `json.Unmarshal(body, &bloomskyInfo)` with `bloomskyInfo` a nil
`[]BloomskyStructure`: the resulting slice, or the error returned.  A body that
is not a JSON text is a syntax error; `null` leaves the slice nil; an array is
decoded element by element; any other value is an `UnmarshalTypeError`.
`json.Unmarshal` keeps decoding after an `UnmarshalTypeError` and returns the first
one at the end; every error is fatal to the caller, so the decoding here stops at
the first.  The error texts are abbreviated. -/
def jsonUnmarshal : Payload → Except String (List BloomskyStructure)
  | .empty => .error "unexpected end of JSON input"
  | .malformed => .error "invalid character"
  | .text .null => .ok []
  | .text (.arr xs) => decodeSnapshots xs
  | .text _ => .error "json: cannot unmarshal into Go value of type []BloomskyStructure"

mutual
/-- Whether every `float64` inside the value is finite. -/
def GoAny.finite : GoAny → Bool
  | .float64 x => x.isFinite
  | .slice xs => GoAny.finiteList xs
  | .map kvs => GoAny.finiteMembers kvs
  | _ => true
/-- Whether every `float64` inside the elements is finite. -/
def GoAny.finiteList : List GoAny → Bool
  | [] => true
  | x :: xs => x.finite && GoAny.finiteList xs
/-- Whether every `float64` inside the map values is finite. -/
def GoAny.finiteMembers : List (String × GoAny) → Bool
  | [] => true
  | (_, x) :: kvs => x.finite && GoAny.finiteMembers kvs
end

/-- Whether every `float64` of the `Storm` struct is finite. -/
def BloomskyStormStructure.finite (s : BloomskyStormStructure) : Bool :=
  s.WindGust.isFinite && s.WindGustms.isFinite && s.WindGustkmh.isFinite &&
  s.SustainedWindSpeed.isFinite && s.SustainedWindSpeedms.isFinite &&
  s.SustainedWindSpeedkmh.isFinite && s.Rain.isFinite && s.RainDaily.isFinite &&
  s.RainDailymm.isFinite && s.RainRate.isFinite && s.RainRatemm.isFinite &&
  s.Rainin.isFinite && s.Rainmm.isFinite

/-- Whether every `float64` of the `Data` struct is finite. -/
def BloomskyDataStructure.finite (d : BloomskyDataStructure) : Bool :=
  d.Luminance.isFinite && d.TemperatureF.isFinite && d.TemperatureC.isFinite &&
  d.TS.isFinite && d.Humidity.isFinite && d.Pressure.isFinite && d.Pressurehpa.isFinite &&
  d.Voltage.isFinite && d.UVIndex.isFinite && d.ImageTS.isFinite

/-- Whether every `float64` of the snapshot is finite. -/
def BloomskyStructure.finite (b : BloomskyStructure) : Bool :=
  b.UTC.isFinite && b.Storm.finite && b.RegisterTime.isFinite && b.DST.isFinite &&
  b.LON.isFinite && b.Point.finite && b.NumOfFollowers.isFinite && b.LAT.isFinite &&
  b.ALT.isFinite && b.Data.finite

/-- Whether `json.Marshal(bloomskyInfo)` returns an error: it does exactly when the
value holds a `float64` that is NaN or an infinity (`UnsupportedValueError`); the
other field types of the record always encode. -/
def jsonMarshalFails (bloomskyInfo : BloomskyStructure) : Bool := !bloomskyInfo.finite

/-! ## `NewBloomskyFromBody` -/

/-- How a call ends: it returns a value, `log.Fatalf` ends the process, or the
run time panics (index out of range). -/
inductive Outcome (α : Type)
  | returned (r : α)
  | fatal (msg : String)
  | panic

/-- The value returned, if the call returned. -/
def Outcome.record {α : Type} : Outcome α → Option α
  | .returned r => some r
  | _ => none

/-- Source `ShowPrettyAll`: `log.Fatalf` when `json.Marshal` fails, a debug log
line otherwise. -/
def BloomskyStructure.ShowPrettyAll (bloomskyInfo : BloomskyStructure) : Outcome Unit :=
  if jsonMarshalFails bloomskyInfo then .fatal "Error with parsing Json" else .returned ()

/-- The nine assignments of `NewBloomskyFromBody` to `bloomskyInfo[0]`, in source
order. -/
def deriveUnits (info : BloomskyStructure) : BloomskyStructure :=
  let info := { info with Data := { info.Data with
      TemperatureC := toFixed (F64.div (F64.mul (F64.sub info.Data.TemperatureF
        (F64.lit false 3200 (-2))) (F64.lit false 500 (-2))) (F64.lit false 900 (-2))) 2 } }
  let info := { info with Data := { info.Data with
      Pressurehpa := toFixed (F64.mul info.Data.Pressure (F64.lit false 338638815 (-7))) 2 } }
  let info := { info with Storm := { info.Storm with
      WindGustms := toFixed (F64.mul info.Storm.WindGust (F64.lit false 44704 (-5))) 2 } }
  let info := { info with Storm := { info.Storm with
      WindGustkmh := toFixed (F64.mul info.Storm.WindGust (F64.lit false 160934 (-5))) 2 } }
  let info := { info with Storm := { info.Storm with
      SustainedWindSpeedms :=
        toFixed (F64.mul info.Storm.SustainedWindSpeed (F64.lit false 44704 (-5))) 2 } }
  let info := { info with Storm := { info.Storm with
      SustainedWindSpeedkmh :=
        toFixed (F64.mul info.Storm.SustainedWindSpeed (F64.lit false 160934 (-5))) 2 } }
  let info := { info with Storm := { info.Storm with
      RainDailymm := toFixed (F64.mul info.Storm.RainDaily (F64.lit false 254 (-1))) 2 } }
  let info := { info with Storm := { info.Storm with
      RainRatemm := toFixed (F64.mul info.Storm.RainRate (F64.lit false 254 (-1))) 2 } }
  let info := { info with Storm := { info.Storm with
      Rainmm := toFixed (F64.mul info.Storm.Rainin (F64.lit false 254 (-1))) 2 } }
  info

/-- Source `NewBloomskyFromBody`; `now` is `time.Now().Format("2006-01-02 15:04:05")`
at the time of the call. -/
def NewBloomskyFromBody (now : String) (body : Payload) : Outcome BloomskyStructure :=
  match jsonUnmarshal body with
  | .error err => .fatal ("Problem with json to struct, problem in the struct ? " ++ err)
  | .ok [] => .panic
  | .ok (first :: _) =>
    let info := deriveUnits first
    match info.ShowPrettyAll with
    | .returned _ => .returned { info with LastCall := now }
    | .fatal msg => .fatal msg
    | .panic => .panic

/-! ## `NewBloomsky` -/

/-- What one call of `myRest.GetWithHeaders` does: whether it returns an error, and
the body `myRest.GetBody()` holds afterwards. -/
structure FetchResult where
  failed : Bool
  body : Payload

/-- The variables of the retry loop: `retry`, the number of `GetWithHeaders` calls
made so far, and the body the REST client holds. -/
structure RetryState where
  retry : Nat
  calls : Nat
  body : Payload

/-- The loop `for retry < 5 { ... }` of `NewBloomsky`; `get n` is the behaviour of
the call of `GetWithHeaders` made after `n` earlier calls. -/
def retryLoop (get : Nat → FetchResult) (st : RetryState) : RetryState :=
  if st.retry < 5 then
    if (get st.calls).failed then
      retryLoop get { retry := st.retry + 1, calls := st.calls + 1, body := (get st.calls).body }
    else
      retryLoop get { retry := 5, calls := st.calls + 1, body := (get st.calls).body }
  else st
termination_by 5 - st.retry

/-- The retry loop started as `NewBloomsky` starts it: `retry = 0`, no call made,
and the fresh client of `rest.MakeNew()` holding no bytes. -/
def fetchWithRetry (rest : String → List (String × List String) → Nat → FetchResult)
    (bloomskyURL bloomskyToken : String) : RetryState :=
  retryLoop (rest bloomskyURL [("Authorization", [bloomskyToken])])
    { retry := 0, calls := 0, body := Payload.empty }

/-- Source `NewBloomsky`; `rest url headers n` is the behaviour of the call
`myRest.GetWithHeaders(url, headers)` made after `n` earlier calls. -/
def NewBloomsky (rest : String → List (String × List String) → Nat → FetchResult)
    (now : String) (bloomskyURL bloomskyToken : String) : Outcome BloomskyStructure :=
  NewBloomskyFromBody now (fetchWithRetry rest bloomskyURL bloomskyToken).body

/-! ## Vocabulary of the statements -/

/-- The integer `floor (mag * 10 ^ N + 1 / 2)` of the specification's rounding
formula `sign x * floor (|x| * 10 ^ N + 1 / 2) / 10 ^ N`. -/
def halfAwayDigits (mag : ℚ) (N : Nat) : Nat :=
  (mag * ((10 ^ N : Nat) : ℚ) + 1 / 2).floor.toNat

/-- Whether the JSON value is an array. -/
def JVal.isArray : JVal → Bool
  | .arr _ => true
  | _ => false

/-- Whether the JSON value is an object. -/
def JVal.isObject : JVal → Bool
  | .obj _ => true
  | _ => false

/-- Whether the JSON value is `null`. -/
def JVal.isNull : JVal → Bool
  | .null => true
  | _ => false

/-- The slice `json.Unmarshal` delivers for `body` (empty when it returns an error). -/
def decoded (body : Payload) : List BloomskyStructure :=
  match jsonUnmarshal body with
  | .ok bs => bs
  | .error _ => []

/-- The first snapshot `json.Unmarshal` delivers for `body`. -/
def decodedFirst (body : Payload) : BloomskyStructure :=
  (decoded body).headD BloomskyStructure.zero

/-- A snapshot object:
`{"Data": {"Temperature": 98.6, "Pressure": 29.92, "TemperatureC": 5},
  "Storm": {"WindGust": 10.5, "SustainedWindSpeed": 4, "RainDaily": 1, "RainRate": 2,
            "24hRain": 3, "WindGustms": 99}, "CityName": "Gent"}`;
two of its keys are named like derived fields. -/
def sampleObject : JVal :=
  .obj [("Data", .obj [("Temperature", .num false 986 (-1)), ("Pressure", .num false 2992 (-2)),
          ("TemperatureC", .num false 5 0)]),
        ("Storm", .obj [("WindGust", .num false 105 (-1)), ("SustainedWindSpeed", .num false 4 0),
          ("RainDaily", .num false 1 0), ("RainRate", .num false 2 0),
          ("24hRain", .num false 3 0), ("WindGustms", .num false 99 0)]),
        ("CityName", .str "Gent")]

/-- The body `[sampleObject]`. -/
def sampleBody : Payload := .text (.arr [sampleObject])

/-- The body `[sampleObject, {"CityName": "Brugge"}]`. -/
def sampleBodyTwo : Payload := .text (.arr [sampleObject, .obj [("CityName", .str "Brugge")]])

/-- A REST client whose first two calls fail and whose later calls succeed with
`sampleBody`. -/
def restFailsTwice (_ : String) (_ : List (String × List String)) (n : Nat) : FetchResult :=
  if n < 2 then { failed := true, body := Payload.empty }
  else { failed := false, body := sampleBody }

/-- A REST client whose every call fails and which never holds any bytes. -/
def restDown (_ : String) (_ : List (String × List String)) (_ : Nat) : FetchResult :=
  { failed := true, body := Payload.empty }

/-- A REST client whose every call fails while it holds `sampleBody`. -/
def restFailsHolding (_ : String) (_ : List (String × List String)) (_ : Nat) : FetchResult :=
  { failed := true, body := sampleBody }

/-! ## Lemmas: binary64 rounding -/

theorem pow2_eq_zpow (z : Int) : pow2 z = (2 : ℚ) ^ z := by
  unfold pow2
  split
  · rename_i h
    have hz : z = ((z.toNat : Nat) : Int) := (Int.toNat_of_nonneg h).symm
    conv_rhs => rw [hz]
    rw [zpow_natCast]
    push_cast
    rfl
  · rename_i h
    have h0 : 0 ≤ -z := by omega
    have hz : z = -(((-z).toNat : Nat) : Int) := by
      rw [Int.toNat_of_nonneg h0]; ring
    conv_rhs => rw [hz]
    rw [zpow_neg, zpow_natCast]
    push_cast
    rw [one_div]

theorem pow2_pos (z : Int) : 0 < pow2 z := by
  rw [pow2_eq_zpow]; positivity

theorem bitLength_zero (fuel : Nat) : bitLength fuel 0 = 0 := by
  cases fuel <;> simp [bitLength]

theorem bitLength_spec (fuel : Nat) : ∀ n : Nat, n ≤ fuel →
    n < 2 ^ bitLength fuel n ∧ (0 < n → 2 ^ (bitLength fuel n - 1) ≤ n) := by
  induction fuel with
  | zero =>
    intro n hn
    have : n = 0 := by omega
    subst this
    simp [bitLength]
  | succ fuel ih =>
    intro n hn
    unfold bitLength
    by_cases h0 : n = 0
    · subst h0; simp
    · rw [if_neg h0]
      have hle : n / 2 ≤ fuel := by omega
      obtain ⟨h1, h2⟩ := ih (n / 2) hle
      constructor
      · rw [pow_succ]; omega
      · intro _
        rw [Nat.add_sub_cancel]
        by_cases hh : n / 2 = 0
        · rw [hh, bitLength_zero]; simp; omega
        · have hpos : 0 < n / 2 := Nat.pos_of_ne_zero hh
          have h3 := h2 hpos
          have hb : 1 ≤ bitLength fuel (n / 2) := by
            by_contra hc
            have : bitLength fuel (n / 2) = 0 := by omega
            rw [this] at h1
            simp at h1
            omega
          have : 2 ^ bitLength fuel (n / 2) = 2 * 2 ^ (bitLength fuel (n / 2) - 1) := by
            conv_lhs => rw [← Nat.sub_add_cancel hb]
            rw [pow_succ]; ring
          omega

theorem bits_spec (n : Nat) (h : 0 < n) : 2 ^ (bits n - 1) ≤ n ∧ n < 2 ^ bits n ∧ 1 ≤ bits n := by
  obtain ⟨h1, h2⟩ := bitLength_spec n n le_rfl
  refine ⟨h2 h, h1, ?_⟩
  by_contra hc
  have : bits n = 0 := by omega
  unfold bits at this
  rw [this] at h1
  simp at h1
  omega

theorem pow2_add (a b : Int) : pow2 (a + b) = pow2 a * pow2 b := by
  simp only [pow2_eq_zpow]
  exact zpow_add₀ (by norm_num) a b

theorem pow2_sub (a b : Int) : pow2 (a - b) = pow2 a / pow2 b := by
  simp only [pow2_eq_zpow]
  exact zpow_sub₀ (by norm_num) a b

theorem pow2_natCast (n : Nat) : pow2 (n : Int) = (2 : ℚ) ^ n := by
  rw [pow2_eq_zpow, zpow_natCast]

theorem pow2_mono {a b : Int} (h : a ≤ b) : pow2 a ≤ pow2 b := by
  simp only [pow2_eq_zpow]
  exact zpow_le_zpow_right₀ (by norm_num) h

theorem pow2_lt_iff {a b : Int} : pow2 a < pow2 b ↔ a < b := by
  simp only [pow2_eq_zpow]
  exact zpow_lt_zpow_iff_right₀ (by norm_num)

/-- `ilog2 q` is the binary exponent of a positive rational. -/
theorem ilog2_spec (q : ℚ) (hq : 0 < q) : pow2 (ilog2 q) ≤ q ∧ q < pow2 (ilog2 q + 1) := by
  have hnum : 0 < q.num := Rat.num_pos.mpr hq
  have hn : 0 < q.num.natAbs := Int.natAbs_pos.mpr (ne_of_gt hnum)
  have hd : 0 < q.den := q.den_pos
  obtain ⟨n1, n2, n3⟩ := bits_spec _ hn
  obtain ⟨d1, d2, d3⟩ := bits_spec _ hd
  have hqeq : q = (q.num.natAbs : ℚ) / (q.den : ℚ) := by
    have h1 : ((q.num.natAbs : Nat) : Int) = q.num := Int.natAbs_of_nonneg (le_of_lt hnum)
    have h2 : ((q.num.natAbs : Nat) : ℚ) = ((q.num : Int) : ℚ) := by
      rw [Nat.cast_natAbs, abs_of_pos hnum]
    rw [h2]
    exact (Rat.num_div_den q).symm
  have hdq : (0 : ℚ) < (q.den : ℚ) := by exact_mod_cast hd
  -- bounds in ℚ
  have N1 : (2 : ℚ) ^ (bits q.num.natAbs - 1) ≤ (q.num.natAbs : ℚ) := by exact_mod_cast n1
  have N2 : (q.num.natAbs : ℚ) < (2 : ℚ) ^ (bits q.num.natAbs) := by exact_mod_cast n2
  have D1 : (2 : ℚ) ^ (bits q.den - 1) ≤ (q.den : ℚ) := by exact_mod_cast d1
  have D2 : (q.den : ℚ) < (2 : ℚ) ^ (bits q.den) := by exact_mod_cast d2
  set bn := bits q.num.natAbs with hbn
  set bd := bits q.den with hbd
  have e1 : pow2 ((bn : Int) - (bd : Int) + 1) = (2 : ℚ) ^ bn / (2 : ℚ) ^ (bd - 1) := by
    have : (bn : Int) - (bd : Int) + 1 = (bn : Int) - ((bd - 1 : Nat) : Int) := by
      push_cast [Nat.cast_sub d3]; ring
    rw [this, pow2_sub, pow2_natCast, pow2_natCast]
  have e2 : pow2 ((bn : Int) - (bd : Int) - 1) = (2 : ℚ) ^ (bn - 1) / (2 : ℚ) ^ bd := by
    have : (bn : Int) - (bd : Int) - 1 = ((bn - 1 : Nat) : Int) - (bd : Int) := by
      push_cast [Nat.cast_sub n3]; ring
    rw [this, pow2_sub, pow2_natCast, pow2_natCast]
  have up : q < pow2 ((bn : Int) - (bd : Int) + 1) := by
    rw [e1, hqeq, div_lt_div_iff₀ hdq (by positivity)]
    calc (q.num.natAbs : ℚ) * 2 ^ (bd - 1) < 2 ^ bn * 2 ^ (bd - 1) := by
          apply mul_lt_mul_of_pos_right N2 (by positivity)
      _ ≤ 2 ^ bn * (q.den : ℚ) := by
          apply mul_le_mul_of_nonneg_left D1 (by positivity)
  have lo : pow2 ((bn : Int) - (bd : Int) - 1) ≤ q := by
    rw [e2, hqeq, div_le_div_iff₀ (by positivity) hdq]
    calc (2 : ℚ) ^ (bn - 1) * (q.den : ℚ) ≤ (q.num.natAbs : ℚ) * (q.den : ℚ) := by
          apply mul_le_mul_of_nonneg_right N1 (le_of_lt hdq)
      _ ≤ (q.num.natAbs : ℚ) * 2 ^ bd := by
          apply mul_le_mul_of_nonneg_left (le_of_lt D2) (by positivity)
  unfold ilog2
  simp only [← hbn, ← hbd]
  split
  · rename_i h
    exact ⟨h, up⟩
  · rename_i h
    refine ⟨lo, ?_⟩
    rw [sub_add_cancel]
    exact lt_of_not_le h

/-- The binary exponent is determined by the binade. -/
theorem ilog2_unique (q : ℚ) (e : Int) (h1 : pow2 e ≤ q) (h2 : q < pow2 (e + 1)) :
    ilog2 q = e := by
  have hq : 0 < q := lt_of_lt_of_le (pow2_pos e) h1
  obtain ⟨s1, s2⟩ := ilog2_spec q hq
  have a : e < ilog2 q + 1 := pow2_lt_iff.mp (lt_of_le_of_lt h1 s2)
  have b : ilog2 q < e + 1 := pow2_lt_iff.mp (lt_of_le_of_lt s1 h2)
  omega

theorem rne_floor (x : ℚ) (hx : 0 ≤ x) :
    ((x.floor.toNat : Nat) : ℚ) ≤ x ∧ x < ((x.floor.toNat : Nat) : ℚ) + 1 := by
  have hfl : x.floor = ⌊x⌋ := rfl
  have h0 : 0 ≤ ⌊x⌋ := Int.floor_nonneg.mpr hx
  have hc : ((x.floor.toNat : Nat) : ℚ) = ((⌊x⌋ : Int) : ℚ) := by
    rw [hfl]
    have : ((⌊x⌋.toNat : Nat) : Int) = ⌊x⌋ := Int.toNat_of_nonneg h0
    exact_mod_cast this
  rw [hc]
  exact ⟨Int.floor_le x, Int.lt_floor_add_one x⟩

/-- Rounding to the nearest natural number moves a value by at most one half. -/
theorem rne_bounds (x : ℚ) (hx : 0 ≤ x) : x - 1 / 2 ≤ (rne x : ℚ) ∧ (rne x : ℚ) ≤ x + 1 / 2 := by
  obtain ⟨h1, h2⟩ := rne_floor x hx
  unfold rne
  simp only
  split_ifs with a b c
  · constructor <;> linarith
  · push_cast; constructor <;> linarith
  · constructor <;> linarith
  · push_cast
    have : x - ((x.floor.toNat : Nat) : ℚ) = 1 / 2 := le_antisymm (not_lt.mp b) (not_lt.mp a)
    constructor <;> linarith

/-- A natural number rounds to itself. -/
theorem rne_natCast (n : Nat) : rne (n : ℚ) = n := by
  have hfl : ((n : ℚ)).floor = (n : Int) := by
    have : (n : ℚ).floor = ⌊(n : ℚ)⌋ := rfl
    rw [this]; exact Int.floor_natCast n
  unfold rne
  simp only [hfl, Int.toNat_ofNat, sub_self]
  norm_num

theorem pow2_1024 : pow2 1024 = (2 : ℚ) ^ 1024 := by
  have := pow2_natCast 1024
  simpa using this

/-- The unit in the last place used for a positive magnitude is at most
`max q 1`. -/
theorem ulp_le (q : ℚ) (hq : 0 < q) :
    pow2 (max (ilog2 q) (-1022) - 52) ≤ q ∨ pow2 (max (ilog2 q) (-1022) - 52) ≤ 1 := by
  rcases le_total (ilog2 q) (-1022) with h | h
  · right
    rw [max_eq_right h]
    have h1 : pow2 0 = 1 := by rw [pow2_eq_zpow, zpow_zero]
    exact (pow2_mono (by norm_num)).trans h1.le
  · left
    rw [max_eq_left h]
    calc pow2 (ilog2 q - 52) ≤ pow2 (ilog2 q) := pow2_mono (by omega)
      _ ≤ q := (ilog2_spec q hq).1

/-- Rounding a magnitude changes it by at most half a unit in the last place, so
a magnitude up to `2 ^ 1000` rounds to a finite value, at most `2 * q + 1`. -/
theorem F64.ofRat_finite (s : Bool) (q : ℚ) (h0 : 0 ≤ q) (hq : q ≤ (2 : ℚ) ^ 1000) :
    ∃ m : ℚ, F64.ofRat s q = .fin s m ∧ 0 ≤ m ∧ m ≤ 2 * q + 1 := by
  unfold F64.ofRat
  by_cases hz : q ≤ 0
  · rw [if_pos hz]
    exact ⟨0, rfl, le_refl _, by linarith⟩
  · rw [if_neg hz]
    have hpos : 0 < q := lt_of_not_le hz
    simp only
    set ulp := pow2 (max (ilog2 q) (-1022) - 52) with hulp
    have hu : 0 < ulp := pow2_pos _
    have hk := (rne_bounds (q / ulp) (div_nonneg h0 (le_of_lt hu))).2
    have hr : (rne (q / ulp) : ℚ) * ulp ≤ q + ulp / 2 := by
      calc (rne (q / ulp) : ℚ) * ulp ≤ (q / ulp + 1 / 2) * ulp :=
            mul_le_mul_of_nonneg_right hk (le_of_lt hu)
        _ = q + ulp / 2 := by field_simp; ring
    have hle : (rne (q / ulp) : ℚ) * ulp ≤ 2 * q + 1 := by
      rcases ulp_le q hpos with h | h <;> linarith
    have hlt : ¬ pow2 1024 ≤ (rne (q / ulp) : ℚ) * ulp := by
      rw [pow2_1024, not_le]
      have e : (2 : ℚ) ^ 1024 = 2 ^ 1000 * 2 ^ 24 := by
        rw [show (1024 : ℕ) = 1000 + 24 from rfl, pow_add]
      have p : (1 : ℚ) ≤ 2 ^ 1000 := one_le_pow₀ (by norm_num)
      rw [e]
      norm_num
      linarith
    rw [if_neg hlt]
    exact ⟨_, rfl, mul_nonneg (Nat.cast_nonneg _) (le_of_lt hu), hle⟩

theorem F64.ofInt_finite (i : Int) (h1 : -(2 ^ 63 : Int) ≤ i) (h2 : i < 2 ^ 63) :
    ∃ s m, F64.ofInt i = .fin s m ∧ 0 ≤ m ∧ m ≤ 2 ^ 65 := by
  unfold F64.ofInt
  have hb : (i.natAbs : ℚ) ≤ 2 ^ 63 := by
    have : i.natAbs ≤ 2 ^ 63 := by omega
    exact_mod_cast this
  obtain ⟨m, e, m0, m1⟩ := F64.ofRat_finite (decide (i < 0)) (i.natAbs : ℚ) (by positivity)
    (le_trans hb (pow_le_pow_right₀ (by norm_num) (by norm_num)))
  exact ⟨_, m, e, m0, by linarith⟩

theorem F64.toInt_range (x : F64) : -(2 ^ 63 : Int) ≤ x.toInt ∧ x.toInt < 2 ^ 63 := by
  unfold F64.toInt
  cases x with
  | nan => simp
  | inf s => simp
  | fin s m =>
    simp only
    split_ifs <;> first | assumption | norm_num

theorem pow10_two : F64.pow10 2 = .fin false 100 := by decide!

/-- With precision 2, `toFixed` always yields a finite value. -/
theorem toFixed_two_finite (x : F64) : (toFixed x 2).isFinite = true := by
  unfold toFixed
  simp only [pow10_two]
  obtain ⟨r1, r2⟩ := F64.toInt_range (F64.add (F64.mul x (.fin false 100))
    (F64.copysignHalf (F64.mul x (.fin false 100))))
  obtain ⟨s, m, e, m0, m1⟩ := F64.ofInt_finite _ r1 r2
  unfold round
  rw [e]
  unfold F64.div
  simp only
  rw [if_neg (by norm_num)]
  obtain ⟨m', e', _, _⟩ := F64.ofRat_finite (xor s false) (m / 100) (by positivity)
    (by
      have : m / 100 ≤ (2 : ℚ) ^ 65 := by
        rw [div_le_iff₀ (by norm_num)]; linarith
      exact le_trans this (pow_le_pow_right₀ (by norm_num) (by norm_num)))
  rw [e']
  rfl

/-! ## Lemmas: what `json.Unmarshal` delivers -/

theorem Except.map_ok {ε α β : Type} {f : α → β} {e : Except ε α} {y : β}
    (h : e.map f = .ok y) : ∃ x, e = .ok x ∧ y = f x := by
  cases e with
  | error err => simp [Except.map] at h
  | ok x => exact ⟨x, rfl, by simpa [Except.map] using h.symm⟩

theorem ite_ok_cases {c : Prop} [Decidable c] {ε α : Type} {a b : Except ε α} {y : α}
    {P : Prop} (h : (if c then a else b) = .ok y) (ha : a = .ok y → P) (hb : b = .ok y → P) :
    P := by
  by_cases hc : c
  · rw [if_pos hc] at h; exact ha h
  · rw [if_neg hc] at h; exact hb h

theorem parseFloat_finite {neg : Bool} {m : Nat} {e : Int} {x : F64}
    (h : parseFloat neg m e = .ok x) : x.isFinite = true := by
  unfold parseFloat at h
  split at h
  · cases h; rfl
  · cases h

theorem decodeFloat_finite {cur : F64} {v : JVal} {x : F64} (hc : cur.isFinite = true)
    (h : decodeFloat cur v = .ok x) : x.isFinite = true := by
  cases v <;> simp only [decodeFloat] at h
  · cases h; exact hc
  · cases h
  · exact parseFloat_finite h
  all_goals cases h

theorem decodeMembers_inv {α : Type} (P : α → Prop)
    (set : α → String → JVal → Except String α)
    (hset : ∀ cur k v next, P cur → set cur k v = .ok next → P next) :
    ∀ (kvs : List (String × JVal)) (cur r : α), P cur → decodeMembers set cur kvs = .ok r → P r := by
  intro kvs
  induction kvs with
  | nil =>
    intro cur r hc h
    simp only [decodeMembers] at h
    cases h; exact hc
  | cons kv rest ih =>
    intro cur r hc h
    obtain ⟨k, v⟩ := kv
    simp only [decodeMembers] at h
    cases hs : set cur k v with
    | error err => rw [hs] at h; cases h
    | ok next =>
      rw [hs] at h
      exact ih next r (hset cur k v next hc hs) h

theorem decodeStruct_inv {α : Type} (P : α → Prop)
    (set : α → String → JVal → Except String α)
    (hset : ∀ cur k v next, P cur → set cur k v = .ok next → P next)
    (cur r : α) (v : JVal) (hc : P cur) (h : decodeStruct set cur v = .ok r) : P r := by
  cases v <;> simp only [decodeStruct] at h
  · cases h; exact hc
  case obj kvs => exact decodeMembers_inv P set hset kvs cur r hc h
  all_goals cases h

theorem storm_setField_finite (s : BloomskyStormStructure) (key : String)
    (v : JVal) (next : BloomskyStormStructure) (hs : s.finite = true)
    (h : s.setField key v = .ok next) : next.finite = true := by
  unfold BloomskyStormStructure.setField at h
  simp only [BloomskyStormStructure.finite, Bool.and_eq_true] at hs ⊢
  repeat' (refine ite_ok_cases h (fun h => ?_) (fun h => ?_))
  all_goals first
    | (cases h; exact hs)
    | (obtain ⟨x, hx, rfl⟩ := Except.map_ok h
       first
         | (have hf := decodeFloat_finite (by simp only [hs]) hx
            simp only [hf, hs, and_self])
         | simp only [hs, and_self])

theorem data_setField_finite (d : BloomskyDataStructure) (key : String)
    (v : JVal) (next : BloomskyDataStructure) (hs : d.finite = true)
    (h : d.setField key v = .ok next) : next.finite = true := by
  unfold BloomskyDataStructure.setField at h
  simp only [BloomskyDataStructure.finite, Bool.and_eq_true] at hs ⊢
  repeat' (refine ite_ok_cases h (fun h => ?_) (fun h => ?_))
  all_goals first
    | (cases h; exact hs)
    | (obtain ⟨x, hx, rfl⟩ := Except.map_ok h
       first
         | (have hf := decodeFloat_finite (by simp only [hs]) hx
            simp only [hf, hs, and_self])
         | simp only [hs, and_self])

theorem mapInsert_finite (k : String) (v : GoAny) (hv : v.finite = true) :
    ∀ m : List (String × GoAny), GoAny.finiteMembers m = true →
      GoAny.finiteMembers (mapInsert k v m) = true := by
  intro m
  induction m with
  | nil => intro _; simp [mapInsert, GoAny.finiteMembers, hv]
  | cons kv rest ih =>
    obtain ⟨k0, v0⟩ := kv
    intro h
    simp only [GoAny.finiteMembers, Bool.and_eq_true] at h
    unfold mapInsert
    split
    · simp [GoAny.finiteMembers, hv, h.2]
    · simp [GoAny.finiteMembers, h.1, ih h.2]

mutual
theorem decodeAny_finite : ∀ (v : JVal) (a : GoAny), decodeAny v = .ok a → a.finite = true
  | .null, a, h => by
    simp only [decodeAny] at h; cases h; rfl
  | .bool b, a, h => by
    simp only [decodeAny] at h; cases h; rfl
  | .num neg m e, a, h => by
    simp only [decodeAny] at h
    cases hp : parseFloat neg m e with
    | error err => rw [hp] at h; cases h
    | ok x =>
      rw [hp] at h; cases h
      simpa [GoAny.finite] using parseFloat_finite hp
  | .str s, a, h => by
    simp only [decodeAny] at h; cases h; rfl
  | .arr xs, a, h => by
    simp only [decodeAny] at h
    cases hp : decodeAnyList xs with
    | error err => rw [hp] at h; cases h
    | ok ys =>
      rw [hp] at h; cases h
      simpa [GoAny.finite] using decodeAnyList_finite xs ys hp
  | .obj kvs, a, h => by
    simp only [decodeAny] at h
    cases hp : decodeAnyMembers [] kvs with
    | error err => rw [hp] at h; cases h
    | ok m =>
      rw [hp] at h; cases h
      simpa [GoAny.finite] using decodeAnyMembers_finite kvs [] m rfl hp
theorem decodeAnyList_finite : ∀ (xs : List JVal) (ys : List GoAny),
    decodeAnyList xs = .ok ys → GoAny.finiteList ys = true
  | [], ys, h => by
    simp only [decodeAnyList] at h; cases h; rfl
  | x :: xs, ys, h => by
    simp only [decodeAnyList] at h
    cases hx : decodeAny x with
    | error err => rw [hx] at h; cases h
    | ok y =>
      rw [hx] at h
      cases hr : decodeAnyList xs with
      | error err => rw [hr] at h; cases h
      | ok rest =>
        rw [hr] at h; cases h
        simp [GoAny.finiteList, decodeAny_finite x y hx, decodeAnyList_finite xs rest hr]
theorem decodeAnyMembers_finite : ∀ (kvs : List (String × JVal)) (acc m : List (String × GoAny)),
    GoAny.finiteMembers acc = true → decodeAnyMembers acc kvs = .ok m →
      GoAny.finiteMembers m = true
  | [], acc, m, ha, h => by
    simp only [decodeAnyMembers] at h; cases h; exact ha
  | (k, x) :: kvs, acc, m, ha, h => by
    simp only [decodeAnyMembers] at h
    cases hx : decodeAny x with
    | error err => rw [hx] at h; cases h
    | ok y =>
      rw [hx] at h
      exact decodeAnyMembers_finite kvs _ m
        (mapInsert_finite k y (decodeAny_finite x y hx) acc ha) h
end

theorem snapshot_setField_finite (b : BloomskyStructure) (key : String)
    (v : JVal) (next : BloomskyStructure) (hs : b.finite = true)
    (h : b.setField key v = .ok next) : next.finite = true := by
  unfold BloomskyStructure.setField at h
  simp only [BloomskyStructure.finite, Bool.and_eq_true] at hs ⊢
  repeat' (refine ite_ok_cases h (fun h => ?_) (fun h => ?_))
  all_goals first
    | (cases h; exact hs)
    | (obtain ⟨x, hx, rfl⟩ := Except.map_ok h
       first
         | (have hf := decodeFloat_finite (by simp only [hs]) hx
            simp only [hf, hs, and_self])
         | (have hf := decodeAny_finite _ _ hx
            simp only [hf, hs, and_self])
         | (have hf := decodeStruct_inv (fun s => BloomskyStormStructure.finite s = true) _
              storm_setField_finite _ _ _ (by simp only [hs]) hx
            simp only [hf, hs, and_self])
         | (have hf := decodeStruct_inv (fun s => BloomskyDataStructure.finite s = true) _
              data_setField_finite _ _ _ (by simp only [hs]) hx
            simp only [hf, hs, and_self])
         | simp only [hs, and_self])

theorem zero_snapshot_finite : BloomskyStructure.zero.finite = true := by decide

theorem decodeSnapshots_finite : ∀ (xs : List JVal) (bs : List BloomskyStructure),
    decodeSnapshots xs = .ok bs → ∀ b ∈ bs, b.finite = true := by
  intro xs
  induction xs with
  | nil =>
    intro bs h
    simp only [decodeSnapshots] at h
    cases h; simp
  | cons x rest ih =>
    intro bs h
    simp only [decodeSnapshots] at h
    cases hx : decodeStruct BloomskyStructure.setField BloomskyStructure.zero x with
    | error err => rw [hx] at h; cases h
    | ok b =>
      rw [hx] at h
      cases hr : decodeSnapshots rest with
      | error err => rw [hr] at h; cases h
      | ok bs0 =>
        rw [hr] at h; cases h
        intro c hc
        rcases List.mem_cons.mp hc with rfl | hc
        · exact decodeStruct_inv (fun s => BloomskyStructure.finite s = true) _
            snapshot_setField_finite _ _ _ zero_snapshot_finite hx
        · exact ih bs0 hr c hc

/-- Every snapshot `json.Unmarshal` delivers holds finite numbers only. -/
theorem jsonUnmarshal_finite (body : Payload) (bs : List BloomskyStructure)
    (h : jsonUnmarshal body = .ok bs) : ∀ b ∈ bs, b.finite = true := by
  unfold jsonUnmarshal at h
  split at h
  · cases h
  · cases h
  · cases h; simp
  · exact decodeSnapshots_finite _ _ h
  · cases h

/-! ## Lemmas: `NewBloomskyFromBody` -/

theorem deriveUnits_finite (b : BloomskyStructure) (h : b.finite = true) :
    (deriveUnits b).finite = true := by
  simp only [BloomskyStructure.finite, BloomskyStormStructure.finite,
    BloomskyDataStructure.finite, Bool.and_eq_true] at h
  simp only [deriveUnits, BloomskyStructure.finite, BloomskyStormStructure.finite,
    BloomskyDataStructure.finite, Bool.and_eq_true, toFixed_two_finite, h, and_self]

/-- A decode error is fatal. -/
theorem NewBloomskyFromBody_of_error (now : String) (body : Payload) (err : String)
    (h : jsonUnmarshal body = .error err) :
    NewBloomskyFromBody now body =
      .fatal ("Problem with json to struct, problem in the struct ? " ++ err) := by
  unfold NewBloomskyFromBody
  rw [h]

/-- An empty slice makes `bloomskyInfo[0]` panic. -/
theorem NewBloomskyFromBody_of_nil (now : String) (body : Payload)
    (h : jsonUnmarshal body = .ok []) : NewBloomskyFromBody now body = .panic := by
  unfold NewBloomskyFromBody
  rw [h]

/-- A non-empty slice gives the first element with its units derived and the
time stamp set: `json.Marshal` cannot fail in `ShowPrettyAll`. -/
theorem NewBloomskyFromBody_of_cons (now : String) (body : Payload)
    (first : BloomskyStructure) (rest : List BloomskyStructure)
    (h : jsonUnmarshal body = .ok (first :: rest)) :
    NewBloomskyFromBody now body = .returned { deriveUnits first with LastCall := now } := by
  have hf : first.finite = true := jsonUnmarshal_finite body _ h first (List.mem_cons_self _ _)
  have hd := deriveUnits_finite first hf
  unfold NewBloomskyFromBody
  rw [h]
  simp only [BloomskyStructure.ShowPrettyAll, jsonMarshalFails, hd]
  rfl

/-! ## Lemmas: exact steps of `toFixed` -/

/-- A natural number below `2 ^ 53` is a `float64`: rounding leaves it alone. -/
theorem F64.ofRat_natCast (s : Bool) (n : Nat) (h : n < 2 ^ 53) :
    F64.ofRat s (n : ℚ) = .fin s (n : ℚ) := by
  unfold F64.ofRat
  by_cases h0 : n = 0
  · subst h0; simp
  · have hpos : 0 < n := Nat.pos_of_ne_zero h0
    have hq : ¬ ((n : ℚ) ≤ 0) := by
      have : (0 : ℚ) < n := by exact_mod_cast hpos
      exact not_le.mpr this
    rw [if_neg hq]
    obtain ⟨b1, b2, b3⟩ := bits_spec n hpos
    have hb : bits n ≤ 53 := by
      by_contra hc
      have : 2 ^ 53 ≤ 2 ^ (bits n - 1) := Nat.pow_le_pow_right (by norm_num) (by omega)
      omega
    have hlog : ilog2 (n : ℚ) = ((bits n - 1 : Nat) : Int) := by
      apply ilog2_unique
      · rw [pow2_natCast]; exact_mod_cast b1
      · have : ((bits n - 1 : Nat) : Int) + 1 = ((bits n : Nat) : Int) := by
          push_cast [Nat.cast_sub b3]; ring
        rw [this, pow2_natCast]; exact_mod_cast b2
    simp only [hlog]
    have hmax : max (((bits n - 1 : Nat) : Int)) (-1022) = ((bits n - 1 : Nat) : Int) := by
      apply max_eq_left; omega
    rw [hmax]
    have hulp : pow2 (((bits n - 1 : Nat) : Int) - 52) = 1 / (2 : ℚ) ^ (53 - bits n) := by
      have : ((bits n - 1 : Nat) : Int) - 52 = -(((53 - bits n : Nat)) : Int) := by
        push_cast [Nat.cast_sub b3, Nat.cast_sub hb]; ring
      rw [this, pow2_eq_zpow, zpow_neg, zpow_natCast, one_div]
    rw [hulp]
    have hdiv : (n : ℚ) / (1 / (2 : ℚ) ^ (53 - bits n)) = ((n * 2 ^ (53 - bits n) : Nat) : ℚ) := by
      push_cast; field_simp
    rw [hdiv, rne_natCast]
    have hval : ((n * 2 ^ (53 - bits n) : Nat) : ℚ) * (1 / (2 : ℚ) ^ (53 - bits n)) = (n : ℚ) := by
      push_cast; field_simp
    rw [hval]
    have hlt : ¬ pow2 1024 ≤ (n : ℚ) := by
      rw [pow2_1024, not_le]
      have h1 : (n : ℚ) < 2 ^ 53 := by exact_mod_cast h
      have h2 : (2 : ℚ) ^ 53 ≤ 2 ^ 1024 := pow_le_pow_right₀ (by norm_num) (by norm_num)
      linarith
    rw [if_neg hlt]

theorem F64.pow10_exact (N : Nat) (hN : N ≤ 22) :
    F64.pow10 (N : Int) = .fin false ((10 ^ N : Nat) : ℚ) := by
  interval_cases N <;> decide!

/-- Rounding a magnitude up to `2 ^ 1000` gives a finite value within
`(q + 1) / 2 ^ 53` of it. -/
theorem F64.ofRat_error (s : Bool) (q : ℚ) (h0 : 0 ≤ q) (hq : q ≤ (2 : ℚ) ^ 1000) :
    ∃ m : ℚ, F64.ofRat s q = .fin s m ∧ 0 ≤ m ∧ |m - q| ≤ (q + 1) / 2 ^ 53 := by
  unfold F64.ofRat
  by_cases hz : q ≤ 0
  · rw [if_pos hz]
    have : q = 0 := le_antisymm hz h0
    subst this
    exact ⟨0, rfl, le_refl _, by norm_num⟩
  · rw [if_neg hz]
    have hpos : 0 < q := lt_of_not_le hz
    simp only
    set ulp := pow2 (max (ilog2 q) (-1022) - 52) with hulp
    have hu : 0 < ulp := pow2_pos _
    obtain ⟨k1, k2⟩ := rne_bounds (q / ulp) (div_nonneg h0 (le_of_lt hu))
    have hr2 : (rne (q / ulp) : ℚ) * ulp ≤ q + ulp / 2 := by
      calc (rne (q / ulp) : ℚ) * ulp ≤ (q / ulp + 1 / 2) * ulp :=
            mul_le_mul_of_nonneg_right k2 (le_of_lt hu)
        _ = q + ulp / 2 := by field_simp; ring
    have hr1 : q - ulp / 2 ≤ (rne (q / ulp) : ℚ) * ulp := by
      calc q - ulp / 2 = (q / ulp - 1 / 2) * ulp := by field_simp; ring
        _ ≤ (rne (q / ulp) : ℚ) * ulp := mul_le_mul_of_nonneg_right k1 (le_of_lt hu)
    have hub : ulp ≤ (q + 1) / 2 ^ 52 := by
      rcases le_total (ilog2 q) (-1022) with h | h
      · have e : ulp = pow2 (-1022 - 52) := by rw [hulp, max_eq_right h]
        have h1 : pow2 (-1022 - 52) ≤ pow2 (-52) := pow2_mono (by norm_num)
        have h2 : pow2 (-52) = 1 / 2 ^ 52 := by
          rw [pow2_eq_zpow, show (-52 : ℤ) = -((52 : ℕ) : ℤ) from rfl, zpow_neg, zpow_natCast,
            one_div]
        rw [e]
        calc pow2 (-1022 - 52) ≤ 1 / 2 ^ 52 := h2 ▸ h1
          _ ≤ (q + 1) / 2 ^ 52 := by
            apply div_le_div_of_nonneg_right _ (by positivity)
            linarith
      · have e : ulp = pow2 (ilog2 q) / 2 ^ 52 := by
          rw [hulp, max_eq_left h, pow2_sub]
          congr 1
        rw [e]
        apply div_le_div_of_nonneg_right _ (by positivity)
        have := (ilog2_spec q hpos).1
        linarith
    have hhalf : ulp / 2 ≤ (q + 1) / 2 ^ 53 := by
      have : (q + 1) / 2 ^ 53 = (q + 1) / 2 ^ 52 / 2 := by
        rw [div_div]; norm_num
      rw [this]
      linarith
    have hle : (rne (q / ulp) : ℚ) * ulp ≤ 2 * q + 1 := by
      rcases ulp_le q hpos with h | h <;> linarith
    have hlt : ¬ pow2 1024 ≤ (rne (q / ulp) : ℚ) * ulp := by
      rw [pow2_1024, not_le]
      have e : (2 : ℚ) ^ 1024 = 2 ^ 1000 * 2 ^ 24 := by
        rw [show (1024 : ℕ) = 1000 + 24 from rfl, pow_add]
      have p : (1 : ℚ) ≤ 2 ^ 1000 := one_le_pow₀ (by norm_num)
      rw [e]
      norm_num
      linarith
    rw [if_neg hlt]
    refine ⟨_, rfl, mul_nonneg (Nat.cast_nonneg _) (le_of_lt hu), ?_⟩
    rw [abs_le]
    constructor <;> linarith

/-- The last two steps of `toFixed`: for `0 ≤ z` with `floor z < 2 ^ 53`, converting
`(-1) ^ neg * z` to `int`, back to `float64`, and dividing by `10 ^ N`. -/
theorem toFixed_tail (neg : Bool) (z : ℚ) (N : Nat) (hN : N ≤ 22) (hz : 0 ≤ z)
    (hk : z.floor.toNat < 2 ^ 53) :
    F64.div (F64.ofInt (F64.toInt (.fin neg z))) (F64.pow10 (N : Int)) =
      F64.ofRat (neg && decide (0 < z.floor.toNat))
        ((z.floor.toNat : ℚ) / ((10 ^ N : Nat) : ℚ)) := by
  have hfl : z.floor = ((z.floor.toNat : Nat) : Int) := by
    have h1 : z.floor = ⌊z⌋ := rfl
    rw [h1, Int.toNat_of_nonneg (Int.floor_nonneg.mpr hz)]
  have hten : ((10 ^ N : Nat) : ℚ) ≠ 0 := by positivity
  generalize z.floor.toNat = k at hk hfl
  rw [F64.pow10_exact N hN]
  unfold F64.toInt
  simp only [hfl]
  have hH : ((k : Nat) : Int) < 2 ^ 53 := by exact_mod_cast hk
  have hr : -(2 ^ 63 : Int) ≤ (if neg = true then -((k : Nat) : Int) else ((k : Nat) : Int)) ∧
      (if neg = true then -((k : Nat) : Int) else ((k : Nat) : Int)) < (2 ^ 63 : Int) := by
    split_ifs <;> constructor <;> omega
  rw [if_pos hr]
  unfold F64.ofInt
  have habs : (if neg = true then -((k : Nat) : Int) else ((k : Nat) : Int)).natAbs = k := by
    split_ifs <;> simp
  have hsign : decide ((if neg = true then -((k : Nat) : Int) else ((k : Nat) : Int)) < 0) =
      (neg && decide (0 < k)) := by
    cases neg <;> simp
  rw [habs, hsign, F64.ofRat_natCast _ _ hk]
  unfold F64.div
  simp only [if_neg hten, Bool.xor_false]

/-- When the `float64` product and the `float64` sum of `toFixed` are exact, its
integer is `floor (mag * 10 ^ N + 1 / 2)`. -/
theorem toFixed_of_exact (neg : Bool) (mag : ℚ) (N : Nat) (hN : N ≤ 22) (h0 : 0 ≤ mag)
    (hmul : F64.mul (.fin neg mag) (F64.pow10 (N : Int)) =
      .fin neg (mag * ((10 ^ N : Nat) : ℚ)))
    (hadd : F64.add (.fin neg (mag * ((10 ^ N : Nat) : ℚ)))
        (F64.copysignHalf (.fin neg (mag * ((10 ^ N : Nat) : ℚ)))) =
      .fin neg (mag * ((10 ^ N : Nat) : ℚ) + 1 / 2))
    (hint : halfAwayDigits mag N < 2 ^ 53) :
    toFixed (.fin neg mag) (N : Int) =
      F64.ofRat (neg && decide (0 < halfAwayDigits mag N))
        ((halfAwayDigits mag N : ℚ) / ((10 ^ N : Nat) : ℚ)) := by
  have hq : 0 ≤ mag * ((10 ^ N : Nat) : ℚ) + 1 / 2 := by positivity
  unfold toFixed round
  simp only
  rw [hmul, hadd]
  exact toFixed_tail neg _ N hN hq hint

/-- The integer of the rounding formula stays below `2 ^ 53` when
`mag * 10 ^ N ≤ 2 ^ 52`. -/
theorem halfAwayDigits_lt (mag : ℚ) (N : Nat) (h0 : 0 ≤ mag)
    (hr : mag * ((10 ^ N : Nat) : ℚ) ≤ 2 ^ 52) : halfAwayDigits mag N < 2 ^ 53 := by
  have hq : 0 ≤ mag * ((10 ^ N : Nat) : ℚ) + 1 / 2 := by positivity
  obtain ⟨f1, _⟩ := rne_floor _ hq
  have h2 : (2 : ℚ) ^ 52 + 1 / 2 < 2 ^ 53 := by norm_num
  have : ((halfAwayDigits mag N : Nat) : ℚ) < 2 ^ 53 := by
    unfold halfAwayDigits
    linarith
  exact_mod_cast this

/-- For every finite `x = (-1) ^ neg * mag` with `mag * 10 ^ N ≤ 2 ^ 52` and
`N ≤ 22`, `toFixed x N` is the `float64` nearest to `sign x * k / 10 ^ N` for an integer
`k` within `1/2 + (mag * 10 ^ N + 1) / 2 ^ 51` of `mag * 10 ^ N`. -/
theorem toFixed_within_half (neg : Bool) (mag : ℚ) (N : Nat) (hN : N ≤ 22) (h0 : 0 ≤ mag)
    (hr : mag * ((10 ^ N : Nat) : ℚ) ≤ 2 ^ 52) :
    ∃ k : Nat,
      toFixed (.fin neg mag) (N : Int) =
        F64.ofRat (neg && decide (0 < k)) ((k : ℚ) / ((10 ^ N : Nat) : ℚ)) ∧
      |(k : ℚ) - mag * ((10 ^ N : Nat) : ℚ)| ≤
        1 / 2 + (mag * ((10 ^ N : Nat) : ℚ) + 1) / 2 ^ 51 := by
  have ha : 0 ≤ mag * ((10 ^ N : Nat) : ℚ) := by positivity
  have hbig : (2 : ℚ) ^ 53 ≤ 2 ^ 1000 := pow_le_pow_right₀ (by norm_num) (by norm_num)
  obtain ⟨y, hy, y0, yerr⟩ := F64.ofRat_error neg (mag * ((10 ^ N : Nat) : ℚ)) ha
    (by
      have : (2 : ℚ) ^ 52 ≤ 2 ^ 53 := by norm_num
      linarith)
  rw [abs_le] at yerr
  have hy53 : y + 1 / 2 ≤ 2 ^ 53 := by
    have := yerr.2
    have e : (mag * ((10 ^ N : Nat) : ℚ) + 1) / 2 ^ 53 ≤ 1 := by
      rw [div_le_one (by positivity)]
      have : (2 : ℚ) ^ 52 + 1 ≤ 2 ^ 53 := by norm_num
      linarith
    have : (2 : ℚ) ^ 52 + 2 ≤ 2 ^ 53 := by norm_num
    linarith
  obtain ⟨z, hz, z0, zerr⟩ := F64.ofRat_error neg (y + 1 / 2)
    (add_nonneg y0 (by norm_num)) (le_trans hy53 hbig)
  rw [abs_le] at zerr
  obtain ⟨f1, f2⟩ := rne_floor z z0
  have hmul : F64.mul (.fin neg mag) (F64.pow10 (N : Int)) = .fin neg y := by
    rw [F64.pow10_exact N hN]
    simp only [F64.mul, Bool.xor_false]
    exact hy
  have hadd : F64.add (.fin neg y) (F64.copysignHalf (.fin neg y)) = .fin neg z := by
    simp only [F64.copysignHalf, F64.signbit, F64.add, if_true]
    exact hz
  have e53 : (2 : ℚ) ^ 53 = 2 ^ 52 * 2 := by norm_num
  have e51 : (2 : ℚ) ^ 51 = 2 ^ 52 / 2 := by norm_num
  have hzlt : z < 2 ^ 53 := by
    have h1 := zerr.2
    have h2 := yerr.2
    have q1 : (y + 1 / 2 + 1) / 2 ^ 53 ≤ 1 := by
      rw [div_le_one (by positivity)]
      have : (2 : ℚ) ^ 52 + 4 ≤ 2 ^ 53 := by norm_num
      have q0 : (mag * ((10 ^ N : Nat) : ℚ) + 1) / 2 ^ 53 ≤ 1 := by
        rw [div_le_one (by positivity)]
        have : (2 : ℚ) ^ 52 + 1 ≤ 2 ^ 53 := by norm_num
        linarith
      linarith
    have q0 : (mag * ((10 ^ N : Nat) : ℚ) + 1) / 2 ^ 53 ≤ 1 := by
      rw [div_le_one (by positivity)]
      have : (2 : ℚ) ^ 52 + 1 ≤ 2 ^ 53 := by norm_num
      linarith
    have : (2 : ℚ) ^ 52 + 4 < 2 ^ 53 := by norm_num
    linarith
  have hk : z.floor.toNat < 2 ^ 53 := by
    have : ((z.floor.toNat : Nat) : ℚ) < 2 ^ 53 := lt_of_le_of_lt f1 hzlt
    exact_mod_cast this
  refine ⟨z.floor.toNat, ?_, ?_⟩
  · unfold toFixed round
    simp only
    rw [hmul, hadd]
    exact toFixed_tail neg z N hN z0 hk
  · set a := mag * ((10 ^ N : Nat) : ℚ) with hadef
    set k := ((z.floor.toNat : Nat) : ℚ) with hkdef
    have y1 := yerr.1
    have y2 := yerr.2
    have z1 := zerr.1
    have z2 := zerr.2
    have d1 : (a + 1) / 2 ^ 53 = (a + 1) / 2 ^ 51 / 4 := by
      rw [div_div]; norm_num
    have d2 : (y + 1 / 2 + 1) / 2 ^ 53 ≤ (a + 1) / 2 ^ 51 / 2 := by
      have hy2 : y + 1 / 2 + 1 ≤ 2 * (a + 1) := by
        have : (a + 1) / 2 ^ 53 ≤ (a + 1) / 2 := by
          apply div_le_div_of_nonneg_left (by linarith) (by norm_num) (by norm_num)
        linarith
      calc (y + 1 / 2 + 1) / 2 ^ 53 ≤ 2 * (a + 1) / 2 ^ 53 :=
            div_le_div_of_nonneg_right hy2 (by positivity)
        _ = (a + 1) / 2 ^ 51 / 2 := by
            rw [div_div, mul_div_assoc, mul_comm, div_mul_eq_mul_div]
            rw [div_eq_div_iff (by positivity) (by positivity)]
            ring
    rw [abs_le]
    constructor <;> linarith

/-! ## Lemmas: the retry loop -/

theorem retryLoop_done (get : Nat → FetchResult) (st : RetryState) (h : ¬ st.retry < 5) :
    retryLoop get st = st := by
  rw [retryLoop, if_neg h]

theorem retryLoop_fail (get : Nat → FetchResult) (st : RetryState) (h : st.retry < 5)
    (hf : (get st.calls).failed = true) :
    retryLoop get st = retryLoop get
      { retry := st.retry + 1, calls := st.calls + 1, body := (get st.calls).body } := by
  rw [retryLoop, if_pos h, if_pos hf]

theorem retryLoop_success (get : Nat → FetchResult) (st : RetryState) (h : st.retry < 5)
    (hf : (get st.calls).failed = false) :
    retryLoop get st = { retry := 5, calls := st.calls + 1, body := (get st.calls).body } := by
  rw [retryLoop, if_pos h, if_neg (by simp [hf])]
  exact retryLoop_done get _ (by simp)

/-- After `k` failing calls the loop has counted `k` retries and `k` calls. -/
theorem retryLoop_fails (get : Nat → FetchResult) : ∀ (k r c : Nat) (b : Payload),
    r + k ≤ 5 → (∀ i, i < k → (get (c + i)).failed = true) →
    retryLoop get { retry := r, calls := c, body := b } =
      retryLoop get { retry := r + k, calls := c + k,
                      body := if k = 0 then b else (get (c + k - 1)).body } := by
  intro k
  induction k with
  | zero => intro r c b _ _; simp
  | succ k ih =>
    intro r c b hr hf
    have h0 : (get c).failed = true := by simpa using hf 0 (Nat.succ_pos k)
    rw [retryLoop_fail get _ (by simp; omega) h0]
    simp only
    rw [ih (r + 1) (c + 1) (get c).body (by omega)
      (fun i hi => by simpa [Nat.add_assoc, Nat.add_comm 1 i] using hf (i + 1) (by omega))]
    have e1 : r + 1 + k = r + (k + 1) := by omega
    have e2 : c + 1 + k = c + (k + 1) := by omega
    rw [e1, e2]
    congr 2
    by_cases hk : k = 0
    · subst hk; simp
    · simp [hk]

/-- The retry loop of `NewBloomsky`: with the first `k ≤ 5` calls failing and, when
`k < 5`, the next call succeeding, it makes `k + 1` calls (5 when `k = 5`) and ends
holding the body of its last call. -/
theorem fetchWithRetry_spec (rest : String → List (String × List String) → Nat → FetchResult)
    (bloomskyURL bloomskyToken : String) (k : Nat) (hk : k ≤ 5)
    (hfail : ∀ i, i < k → (rest bloomskyURL [("Authorization", [bloomskyToken])] i).failed = true)
    (hsucc : k < 5 → (rest bloomskyURL [("Authorization", [bloomskyToken])] k).failed = false) :
    fetchWithRetry rest bloomskyURL bloomskyToken =
      { retry := 5, calls := if k < 5 then k + 1 else 5,
        body := (rest bloomskyURL [("Authorization", [bloomskyToken])] (if k < 5 then k else 4)).body } := by
  unfold fetchWithRetry
  rw [retryLoop_fails _ k 0 0 Payload.empty (by omega) (fun i hi => by simpa using hfail i hi)]
  by_cases h5 : k < 5
  · rw [retryLoop_success _ _ (by simp; omega) (by simpa using hsucc h5)]
    simp [h5]
  · have hk5 : k = 5 := by omega
    subst hk5
    rw [retryLoop_done _ _ (by simp)]
    simp

/-! ## Lemmas: concrete bodies -/

theorem jsonUnmarshal_eq_decoded (body : Payload) (h : (jsonUnmarshal body).toBool = true) :
    jsonUnmarshal body = .ok (decoded body) := by
  unfold decoded
  cases hj : jsonUnmarshal body with
  | error err => rw [hj] at h; simp [Except.toBool] at h
  | ok bs => rfl

theorem jsonUnmarshal_singleton (body : Payload) (h : (jsonUnmarshal body).toBool = true)
    (hl : (decoded body).length = 1) : jsonUnmarshal body = .ok [decodedFirst body] := by
  rw [jsonUnmarshal_eq_decoded body h]
  unfold decodedFirst
  cases hd : decoded body with
  | nil => rw [hd] at hl; simp at hl
  | cons x xs =>
    rw [hd] at hl
    cases xs with
    | nil => rfl
    | cons y ys => simp at hl

theorem jsonUnmarshal_cons (body : Payload) (h : (jsonUnmarshal body).toBool = true)
    (hl : 0 < (decoded body).length) :
    jsonUnmarshal body = .ok (decodedFirst body :: (decoded body).tail) := by
  rw [jsonUnmarshal_eq_decoded body h]
  unfold decodedFirst
  cases hd : decoded body with
  | nil => rw [hd] at hl; simp at hl
  | cons x xs => rfl

theorem decodeSnapshots_bad_element : ∀ (xs : List JVal) (x : JVal), x ∈ xs →
    x.isObject = false → x.isNull = false → ∃ err, decodeSnapshots xs = .error err := by
  intro xs
  induction xs with
  | nil => intro x hx; simp at hx
  | cons y rest ih =>
    intro x hx ho hn
    simp only [decodeSnapshots]
    cases hy : decodeStruct BloomskyStructure.setField BloomskyStructure.zero y with
    | error err => exact ⟨err, rfl⟩
    | ok b =>
      rcases List.mem_cons.mp hx with rfl | hx
      · cases x <;> simp [JVal.isObject, JVal.isNull, decodeStruct] at ho hn hy
      · obtain ⟨err, he⟩ := ih x hx ho hn
        rw [he]
        exact ⟨err, rfl⟩

theorem decodeSnapshots_length : ∀ (xs : List JVal) (bs : List BloomskyStructure),
    decodeSnapshots xs = .ok bs → bs.length = xs.length := by
  intro xs
  induction xs with
  | nil =>
    intro bs h
    simp only [decodeSnapshots] at h
    cases h; rfl
  | cons x rest ih =>
    intro bs h
    simp only [decodeSnapshots] at h
    cases hx : decodeStruct BloomskyStructure.setField BloomskyStructure.zero x with
    | error err => rw [hx] at h; cases h
    | ok b =>
      rw [hx] at h
      cases hr : decodeSnapshots rest with
      | error err => rw [hr] at h; cases h
      | ok bs0 =>
        rw [hr] at h; cases h
        simp [ih bs0 hr]

theorem decodeSnapshots_head (v : JVal) (vs : List JVal) (bs : List BloomskyStructure)
    (h : decodeSnapshots (v :: vs) = .ok bs) :
    ∃ first others, bs = first :: others ∧
      decodeStruct BloomskyStructure.setField BloomskyStructure.zero v = .ok first := by
  simp only [decodeSnapshots] at h
  cases hx : decodeStruct BloomskyStructure.setField BloomskyStructure.zero v with
  | error err => rw [hx] at h; cases h
  | ok b =>
    rw [hx] at h
    cases hr : decodeSnapshots vs with
    | error err => rw [hr] at h; cases h
    | ok bs0 =>
      rw [hr] at h; cases h
      exact ⟨b, bs0, rfl, rfl⟩

/-! ## The claims -/

/-- Claim C1.  For every payload that decodes as a one-element array,
`NewBloomskyFromBody` returns a record, and each of its nine derived fields is
`toFixed (formula source) 2` of the record's own vendor field: the Celsius
temperature of `Data.TemperatureF`, the hPa pressure of `Data.Pressure`, the m/s and
km/h gusts of `Storm.WindGust`, the m/s and km/h sustained wind of
`Storm.SustainedWindSpeed`, and the millimetre rains of `Storm.RainDaily`,
`Storm.RainRate` and `Storm.Rainin`.  The decoded element `first` is arbitrary, so
this holds whatever the payload put into the derived fields. -/
theorem derived_fields_from_vendor_fields (now : String) (body : Payload)
    (first : BloomskyStructure) (h : jsonUnmarshal body = .ok [first]) :
    ∃ r, NewBloomskyFromBody now body = .returned r ∧
      r.Data.TemperatureC = toFixed (F64.div (F64.mul (F64.sub r.Data.TemperatureF
        (F64.lit false 3200 (-2))) (F64.lit false 500 (-2))) (F64.lit false 900 (-2))) 2 ∧
      r.Data.Pressurehpa = toFixed (F64.mul r.Data.Pressure (F64.lit false 338638815 (-7))) 2 ∧
      r.Storm.WindGustms = toFixed (F64.mul r.Storm.WindGust (F64.lit false 44704 (-5))) 2 ∧
      r.Storm.WindGustkmh = toFixed (F64.mul r.Storm.WindGust (F64.lit false 160934 (-5))) 2 ∧
      r.Storm.SustainedWindSpeedms =
        toFixed (F64.mul r.Storm.SustainedWindSpeed (F64.lit false 44704 (-5))) 2 ∧
      r.Storm.SustainedWindSpeedkmh =
        toFixed (F64.mul r.Storm.SustainedWindSpeed (F64.lit false 160934 (-5))) 2 ∧
      r.Storm.RainDailymm = toFixed (F64.mul r.Storm.RainDaily (F64.lit false 254 (-1))) 2 ∧
      r.Storm.RainRatemm = toFixed (F64.mul r.Storm.RainRate (F64.lit false 254 (-1))) 2 ∧
      r.Storm.Rainmm = toFixed (F64.mul r.Storm.Rainin (F64.lit false 254 (-1))) 2 :=
  ⟨_, NewBloomskyFromBody_of_cons now body first [] h,
    rfl, rfl, rfl, rfl, rfl, rfl, rfl, rfl, rfl⟩

/-- Claim C1, at `sampleBody`, whose object carries the keys `TemperatureC` and
`WindGustms`. -/
theorem derived_fields_from_vendor_fields_witness :
    jsonUnmarshal sampleBody = .ok [decodedFirst sampleBody] ∧
    (decodedFirst sampleBody).Data.TemperatureC = F64.lit false 5 0 ∧
    ((NewBloomskyFromBody "2024-01-01 00:00:00" sampleBody).record.map
      fun r => (r.Data.TemperatureC, r.Storm.WindGustms)) =
        some (F64.lit false 37 0, F64.lit false 469 (-2)) ∧
    ∃ r, NewBloomskyFromBody "2024-01-01 00:00:00" sampleBody = .returned r ∧
      r.Data.TemperatureC = toFixed (F64.div (F64.mul (F64.sub r.Data.TemperatureF
        (F64.lit false 3200 (-2))) (F64.lit false 500 (-2))) (F64.lit false 900 (-2))) 2 ∧
      r.Data.Pressurehpa = toFixed (F64.mul r.Data.Pressure (F64.lit false 338638815 (-7))) 2 ∧
      r.Storm.WindGustms = toFixed (F64.mul r.Storm.WindGust (F64.lit false 44704 (-5))) 2 ∧
      r.Storm.WindGustkmh = toFixed (F64.mul r.Storm.WindGust (F64.lit false 160934 (-5))) 2 ∧
      r.Storm.SustainedWindSpeedms =
        toFixed (F64.mul r.Storm.SustainedWindSpeed (F64.lit false 44704 (-5))) 2 ∧
      r.Storm.SustainedWindSpeedkmh =
        toFixed (F64.mul r.Storm.SustainedWindSpeed (F64.lit false 160934 (-5))) 2 ∧
      r.Storm.RainDailymm = toFixed (F64.mul r.Storm.RainDaily (F64.lit false 254 (-1))) 2 ∧
      r.Storm.RainRatemm = toFixed (F64.mul r.Storm.RainRate (F64.lit false 254 (-1))) 2 ∧
      r.Storm.Rainmm = toFixed (F64.mul r.Storm.Rainin (F64.lit false 254 (-1))) 2 :=
  ⟨jsonUnmarshal_singleton sampleBody (by decide!) (by decide!), by decide!, by decide!,
    derived_fields_from_vendor_fields "2024-01-01 00:00:00" sampleBody (decodedFirst sampleBody)
      (jsonUnmarshal_singleton sampleBody (by decide!) (by decide!))⟩

/-- Claim C2, refuted as stated.  `0.49999999999999994 = 1/2 - 2^-54` is a `float64`;
the multiple of `10 ^ 0` nearest to it is `0` (`floor (x + 1/2) = 0`), yet
`toFixed x 0 = 1`: the sum `x + 0.5` rounds up to `1`.  With two decimals, the
`float64` nearest to `1.115` is `5021513584518103 / 2^52`, just below the tie, so the
nearest multiple of `0.01` is `1.11` (`floor (x * 100 + 1/2) = 111`), yet `toFixed x 2`
is `1.12`: the product `x * 100` rounds up to `111.5`. -/
theorem toFixed_misses_nearest :
    (F64.lit false 49999999999999994 (-17) = F64.fin false (1 / 2 - 1 / 2 ^ 54) ∧
      toFixed (F64.fin false (1 / 2 - 1 / 2 ^ 54)) 0 = F64.fin false 1 ∧
      halfAwayDigits (1 / 2 - 1 / 2 ^ 54) 0 = 0) ∧
    (F64.lit false 1115 (-3) = F64.fin false (5021513584518103 / 2 ^ 52) ∧
      toFixed (F64.fin false (5021513584518103 / 2 ^ 52)) 2 = F64.lit false 112 (-2) ∧
      F64.mul (F64.fin false (5021513584518103 / 2 ^ 52)) (F64.pow10 2) =
        F64.fin false (223 / 2) ∧
      halfAwayDigits (5021513584518103 / 2 ^ 52) 2 = 111) := by
  decide!

/-- Claim C2, amended.  For every finite `x = (-1) ^ neg * mag` and precision
`0 ≤ N ≤ 22` with `|x| * 10 ^ N ≤ 2 ^ 52`: `toFixed x N` is the `float64` nearest to
`sign x * k / 10 ^ N` for an integer `k ≥ 0` within `1/2 + (|x| * 10 ^ N + 1) / 2 ^ 51`
of `|x| * 10 ^ N`, a nearest multiple of `10 ^ -N` up to the rounding of the two
`float64` steps; and when the `float64` product `x * 10 ^ N` and the `float64` sum with
the signed `0.5` are exact, `k` is `floor (|x| * 10 ^ N + 1/2)`: ties go away from
zero.  Besides, `toFixed 2.345 2 = 2.35` and `toFixed (-2.345) 2 = -2.35` on the
`float64` nearest to `2.345`. -/
theorem toFixed_half_away_up_to_rounding (neg : Bool) (mag : ℚ) (N : Nat) (hN : N ≤ 22)
    (h0 : 0 ≤ mag) (hr : mag * ((10 ^ N : Nat) : ℚ) ≤ 2 ^ 52) :
    (∃ k : Nat,
      toFixed (.fin neg mag) (N : Int) =
        F64.ofRat (neg && decide (0 < k)) ((k : ℚ) / ((10 ^ N : Nat) : ℚ)) ∧
      |(k : ℚ) - mag * ((10 ^ N : Nat) : ℚ)| ≤
        1 / 2 + (mag * ((10 ^ N : Nat) : ℚ) + 1) / 2 ^ 51) ∧
    (F64.mul (.fin neg mag) (F64.pow10 (N : Int)) = .fin neg (mag * ((10 ^ N : Nat) : ℚ)) →
      F64.add (.fin neg (mag * ((10 ^ N : Nat) : ℚ)))
          (F64.copysignHalf (.fin neg (mag * ((10 ^ N : Nat) : ℚ)))) =
        .fin neg (mag * ((10 ^ N : Nat) : ℚ) + 1 / 2) →
      toFixed (.fin neg mag) (N : Int) =
        F64.ofRat (neg && decide (0 < halfAwayDigits mag N))
          ((halfAwayDigits mag N : ℚ) / ((10 ^ N : Nat) : ℚ))) ∧
    toFixed (F64.lit false 2345 (-3)) 2 = F64.lit false 235 (-2) ∧
    toFixed (F64.lit true 2345 (-3)) 2 = F64.lit true 235 (-2) :=
  ⟨toFixed_within_half neg mag N hN h0 hr,
    fun hmul hadd => toFixed_of_exact neg mag N hN h0 hmul hadd (halfAwayDigits_lt mag N h0 hr),
    by decide!, by decide!⟩

/-- Claim C2 amended, at the exact tie `-2.375` with two decimals: both steps are
exact and the result is `-2.38`. -/
theorem toFixed_half_away_up_to_rounding_witness :
    ((2 : Nat) ≤ 22 ∧ (0 : ℚ) ≤ 19 / 8 ∧ (19 / 8 : ℚ) * ((10 ^ 2 : Nat) : ℚ) ≤ 2 ^ 52) ∧
    (F64.mul (.fin true (19 / 8)) (F64.pow10 ((2 : Nat) : Int)) =
        .fin true (19 / 8 * ((10 ^ 2 : Nat) : ℚ)) ∧
      F64.add (.fin true (19 / 8 * ((10 ^ 2 : Nat) : ℚ)))
          (F64.copysignHalf (.fin true (19 / 8 * ((10 ^ 2 : Nat) : ℚ)))) =
        .fin true (19 / 8 * ((10 ^ 2 : Nat) : ℚ) + 1 / 2)) ∧
    halfAwayDigits (19 / 8) 2 = 238 ∧
    F64.ofRat (true && decide (0 < halfAwayDigits (19 / 8) 2))
        ((halfAwayDigits (19 / 8) 2 : ℚ) / ((10 ^ 2 : Nat) : ℚ)) = F64.lit true 238 (-2) ∧
    toFixed (.fin true (19 / 8)) ((2 : Nat) : Int) =
      F64.ofRat (true && decide (0 < halfAwayDigits (19 / 8) 2))
        ((halfAwayDigits (19 / 8) 2 : ℚ) / ((10 ^ 2 : Nat) : ℚ)) :=
  ⟨⟨by decide, by decide!, by decide!⟩, ⟨by decide!, by decide!⟩, by decide!, by decide!,
    (toFixed_half_away_up_to_rounding true (19 / 8) 2 (by decide) (by decide!)
      (by decide!)).2.1 (by decide!) (by decide!)⟩

/-- Claim C3.  The retry loop of `NewBloomsky` always terminates (`retryLoop` is a
total function).  When the first `k` calls of `GetWithHeaders` fail and call `k + 1`
succeeds (`k < 5`) it makes exactly `k + 1` calls; when the first 5 calls fail
(`k = 5`) it makes exactly 5; so no call follows a success and there are never more
than 5 calls.  It ends holding the body of its last call. -/
theorem retry_loop_call_count
    (rest : String → List (String × List String) → Nat → FetchResult)
    (bloomskyURL bloomskyToken : String) (k : Nat) (hk : k ≤ 5)
    (hfail : ∀ i, i < k →
      (rest bloomskyURL [("Authorization", [bloomskyToken])] i).failed = true)
    (hsucc : k < 5 →
      (rest bloomskyURL [("Authorization", [bloomskyToken])] k).failed = false) :
    (fetchWithRetry rest bloomskyURL bloomskyToken).calls = (if k < 5 then k + 1 else 5) ∧
    (fetchWithRetry rest bloomskyURL bloomskyToken).calls ≤ 5 ∧
    (fetchWithRetry rest bloomskyURL bloomskyToken).body =
      (rest bloomskyURL [("Authorization", [bloomskyToken])] (if k < 5 then k else 4)).body := by
  rw [fetchWithRetry_spec rest bloomskyURL bloomskyToken k hk hfail hsucc]
  refine ⟨rfl, ?_, rfl⟩
  simp only
  split_ifs <;> omega

/-- Claim C3, at a client that fails twice and then succeeds (3 calls) and at a
client that always fails (5 calls). -/
theorem retry_loop_call_count_witness :
    ((2 ≤ 5 ∧ (∀ i, i < 2 → (restFailsTwice "url" [("Authorization", ["token"])] i).failed = true) ∧
      (2 < 5 → (restFailsTwice "url" [("Authorization", ["token"])] 2).failed = false)) ∧
     (fetchWithRetry restFailsTwice "url" "token").calls = 3) ∧
    ((5 ≤ 5 ∧ (∀ i, i < 5 → (restDown "url" [("Authorization", ["token"])] i).failed = true)) ∧
     (fetchWithRetry restDown "url" "token").calls = 5) :=
  ⟨⟨⟨by decide, by decide, by decide⟩,
      (retry_loop_call_count restFailsTwice "url" "token" 2 (by decide) (by decide) (by decide)).1⟩,
    ⟨⟨by decide, by decide⟩,
      (retry_loop_call_count restDown "url" "token" 5 (by decide) (by decide) (by decide)).1⟩⟩

/-- Claim C4, refuted as stated.  With a client whose 5 calls all fail and which
holds no bytes, `NewBloomsky` ends in `log.Fatalf`: `json.Unmarshal` rejects the
empty body, and no record is returned. -/
theorem all_fetches_fail_empty_body_is_fatal :
    (∀ i, i < 5 → (restDown "url" [("Authorization", ["token"])] i).failed = true) ∧
    (fetchWithRetry restDown "url" "token").body = Payload.empty ∧
    NewBloomsky restDown "2024-01-01 00:00:00" "url" "token" =
      .fatal "Problem with json to struct, problem in the struct ? unexpected end of JSON input" ∧
    (NewBloomsky restDown "2024-01-01 00:00:00" "url" "token").record = none := by
  have h := fetchWithRetry_spec restDown "url" "token" 5 (by decide) (by decide) (by decide)
  refine ⟨by decide, ?_, ?_, ?_⟩
  · rw [h]; rfl
  · unfold NewBloomsky; rw [h]; rfl
  · unfold NewBloomsky; rw [h]; rfl

/-- Claim C4, amended.  When `GetWithHeaders` fails on all 5 attempts the retry loop
itself raises nothing, and `NewBloomsky` is `NewBloomskyFromBody` on the body the
client holds after the fifth call: it returns a record, the first element with its
units derived, when that body decodes to a non-empty array, and it ends in the fatal
decode error when `json.Unmarshal` rejects that body, as it does the empty body. -/
theorem all_fetches_fail_decodes_held_body
    (rest : String → List (String × List String) → Nat → FetchResult)
    (now bloomskyURL bloomskyToken : String)
    (hfail : ∀ i, i < 5 →
      (rest bloomskyURL [("Authorization", [bloomskyToken])] i).failed = true) :
    NewBloomsky rest now bloomskyURL bloomskyToken =
      NewBloomskyFromBody now (rest bloomskyURL [("Authorization", [bloomskyToken])] 4).body ∧
    (∀ first others,
      jsonUnmarshal (rest bloomskyURL [("Authorization", [bloomskyToken])] 4).body =
        .ok (first :: others) →
      NewBloomsky rest now bloomskyURL bloomskyToken =
        .returned { deriveUnits first with LastCall := now }) ∧
    (∀ err,
      jsonUnmarshal (rest bloomskyURL [("Authorization", [bloomskyToken])] 4).body =
        .error err →
      NewBloomsky rest now bloomskyURL bloomskyToken =
        .fatal ("Problem with json to struct, problem in the struct ? " ++ err)) ∧
    ((rest bloomskyURL [("Authorization", [bloomskyToken])] 4).body = Payload.empty →
      NewBloomsky rest now bloomskyURL bloomskyToken =
        .fatal ("Problem with json to struct, problem in the struct ? " ++
          "unexpected end of JSON input")) := by
  have h := fetchWithRetry_spec rest bloomskyURL bloomskyToken 5 (le_refl 5) hfail
    (fun hlt => absurd hlt (by decide))
  have hN : NewBloomsky rest now bloomskyURL bloomskyToken =
      NewBloomskyFromBody now (rest bloomskyURL [("Authorization", [bloomskyToken])] 4).body := by
    unfold NewBloomsky; rw [h]; rfl
  refine ⟨hN, ?_, ?_, ?_⟩
  · intro first others hj
    rw [hN]; exact NewBloomskyFromBody_of_cons now _ first others hj
  · intro err hj
    rw [hN]; exact NewBloomskyFromBody_of_error now _ err hj
  · intro he
    rw [hN, he]
    exact NewBloomskyFromBody_of_error now _ _ rfl

/-- Claim C4 amended, at a client whose calls all fail while it holds `sampleBody`:
a record is returned. -/
theorem all_fetches_fail_decodes_held_body_witness :
    (∀ i, i < 5 → (restFailsHolding "url" [("Authorization", ["token"])] i).failed = true) ∧
    (NewBloomsky restFailsHolding "2024-01-01 00:00:00" "url" "token").record.map
      (fun r => r.CityName) = some "Gent" ∧
    NewBloomsky restFailsHolding "2024-01-01 00:00:00" "url" "token" =
      NewBloomskyFromBody "2024-01-01 00:00:00"
        (restFailsHolding "url" [("Authorization", ["token"])] 4).body := by
  have h := all_fetches_fail_decodes_held_body restFailsHolding "2024-01-01 00:00:00"
    "url" "token" (by decide)
  refine ⟨by decide, ?_, h.1⟩
  rw [h.1]
  decide!

/-- Claim C5, refuted as stated.  The body `[null]` is not an array of snapshot
objects, yet `json.Unmarshal` accepts it (a `null` element leaves the zero struct
alone) and `NewBloomskyFromBody` returns a record whose vendor fields are all zero.
The body `null` is not an array either; it ends in the index panic, not in the fatal
decode error. -/
theorem null_element_returns_record :
    (∃ r, NewBloomskyFromBody "2024-01-01 00:00:00" (.text (.arr [.null])) = .returned r ∧
      r.CityName = "" ∧ r.DeviceID = "" ∧ r.Data.TemperatureF = F64.zero ∧
      r.Data.Pressure = F64.zero ∧ r.Data.Humidity = F64.zero ∧
      r.Storm.WindGust = F64.zero ∧ r.Storm.RainDaily = F64.zero) ∧
    NewBloomskyFromBody "2024-01-01 00:00:00" (.text .null) = .panic :=
  ⟨⟨_, NewBloomskyFromBody_of_cons _ (.text (.arr [.null])) BloomskyStructure.zero [] rfl,
      rfl, rfl, rfl, rfl, rfl, rfl, rfl⟩,
    NewBloomskyFromBody_of_nil _ (.text .null) rfl⟩

/-- Claim C5, amended.  For every body that is empty or otherwise not a JSON text, or
whose top-level value is neither an array nor `null` (an object, a string, a number,
a boolean), or that is an array with an element that is neither an object nor
`null`, `NewBloomskyFromBody` ends in the fatal decode error and returns no record. -/
theorem rejected_payload_is_fatal (now : String) (body : Payload)
    (h : body = .empty ∨ body = .malformed ∨
      (∃ v, body = .text v ∧ v.isArray = false ∧ v.isNull = false) ∨
      (∃ xs x, body = .text (.arr xs) ∧ x ∈ xs ∧ x.isObject = false ∧ x.isNull = false)) :
    (∃ err, NewBloomskyFromBody now body =
      .fatal ("Problem with json to struct, problem in the struct ? " ++ err)) ∧
    (NewBloomskyFromBody now body).record = none := by
  have key : ∃ err, jsonUnmarshal body = .error err := by
    rcases h with rfl | rfl | ⟨v, rfl, ha, hn⟩ | ⟨xs, x, rfl, hx, ho, hn⟩
    · exact ⟨_, rfl⟩
    · exact ⟨_, rfl⟩
    · cases v <;> simp [JVal.isArray, JVal.isNull] at ha hn <;> exact ⟨_, rfl⟩
    · exact decodeSnapshots_bad_element xs x hx ho hn
  obtain ⟨err, he⟩ := key
  have hN := NewBloomskyFromBody_of_error now body err he
  exact ⟨⟨err, hN⟩, by rw [hN]; rfl⟩

/-- Claim C5 amended, at the body `{}`, a single JSON object. -/
theorem rejected_payload_is_fatal_witness :
    ((Payload.text (.obj []) = .empty ∨ Payload.text (.obj []) = .malformed ∨
      (∃ v, Payload.text (.obj []) = .text v ∧ v.isArray = false ∧ v.isNull = false) ∨
      (∃ xs x, Payload.text (.obj []) = .text (.arr xs) ∧ x ∈ xs ∧
        x.isObject = false ∧ x.isNull = false))) ∧
    ((∃ err, NewBloomskyFromBody "2024-01-01 00:00:00" (.text (.obj [])) =
      .fatal ("Problem with json to struct, problem in the struct ? " ++ err)) ∧
    (NewBloomskyFromBody "2024-01-01 00:00:00" (.text (.obj []))).record = none) :=
  ⟨Or.inr (Or.inr (Or.inl ⟨_, rfl, rfl, rfl⟩)),
    rejected_payload_is_fatal "2024-01-01 00:00:00" (.text (.obj []))
      (Or.inr (Or.inr (Or.inl ⟨_, rfl, rfl, rfl⟩)))⟩

/-- Claim C6, the code at `sampleBody` (`RainDaily = 1`, `RainRate = 2`,
`24hRain = 3` inches).  `GetRainDailyMm` returns `1` and `GetRainRateMm` returns `2`,
the values in inches, while the millimetre fields hold `25.4` and `50.8`; only
`GetRainMm` returns its millimetre field, `76.2`.  For every record `GetRainDailyMm`
is `Storm.RainDaily` and `GetRainRateMm` is `Storm.RainRate`. -/
theorem rain_mm_accessors_return_inches :
    ((NewBloomskyFromBody "2024-01-01 00:00:00" sampleBody).record.map fun r =>
      (r.GetRainDailyMm, r.Storm.RainDailymm, r.GetRainRateMm, r.Storm.RainRatemm,
        r.GetRainMm, r.Storm.Rainmm)) =
      some (F64.lit false 1 0, F64.lit false 254 (-1), F64.lit false 2 0,
        F64.lit false 508 (-1), F64.lit false 762 (-1), F64.lit false 762 (-1)) ∧
    (∀ r : BloomskyStructure, r.GetRainDailyMm = r.Storm.RainDaily ∧
      r.GetRainRateMm = r.Storm.RainRate ∧ r.GetRainMm = r.Storm.Rainmm) :=
  ⟨by decide!, fun _ => ⟨rfl, rfl, rfl⟩⟩

/-- Claim C7.  For every record `GetWindGustMs` is `Storm.WindGust * 1.61` and
`GetSustainedWindSpeedMs` is `Storm.SustainedWindSpeed * 1.61`, the bare `float64`
products: no `toFixed`, no derived field read.  For the record decoded from
`sampleBody` (gust `10.5` mph) `GetWindGustMs` is `16.905`, which is neither
`Storm.WindGustms = 4.69` nor `Storm.WindGustkmh = 16.9` and is not a two-decimal
value (`toFixed` of it is `16.91`). -/
theorem legacy_wind_accessors :
    (∀ r : BloomskyStructure,
      r.GetWindGustMs = F64.mul r.Storm.WindGust (F64.lit false 161 (-2)) ∧
      r.GetSustainedWindSpeedMs = F64.mul r.Storm.SustainedWindSpeed (F64.lit false 161 (-2))) ∧
    (∃ r, NewBloomskyFromBody "2024-01-01 00:00:00" sampleBody = .returned r ∧
      r.GetWindGustMs = F64.lit false 16905 (-3) ∧
      r.Storm.WindGustms = F64.lit false 469 (-2) ∧
      r.Storm.WindGustkmh = F64.lit false 169 (-1) ∧
      r.GetWindGustMs ≠ r.Storm.WindGustms ∧
      r.GetWindGustMs ≠ r.Storm.WindGustkmh ∧
      toFixed r.GetWindGustMs 2 = F64.lit false 1691 (-2)) :=
  ⟨fun _ => ⟨rfl, rfl⟩,
    ⟨_, NewBloomskyFromBody_of_cons _ sampleBody (decodedFirst sampleBody) []
        (jsonUnmarshal_singleton sampleBody (by decide!) (by decide!)),
      by decide!, by decide!, by decide!, by decide!, by decide!, by decide!⟩⟩

/-- Claim C8.  For every body and any two clock readings, either both calls of
`NewBloomskyFromBody` return a record, the two records agree once `LastCall` is
blanked and each `LastCall` is the clock reading of its call, or neither returns a
record and both end the same way. -/
theorem decode_deterministic_up_to_clock (body : Payload) (now1 now2 : String) :
    (∃ r1 r2, NewBloomskyFromBody now1 body = .returned r1 ∧
      NewBloomskyFromBody now2 body = .returned r2 ∧
      { r1 with LastCall := "" } = { r2 with LastCall := "" } ∧
      r1.LastCall = now1 ∧ r2.LastCall = now2) ∨
    ((NewBloomskyFromBody now1 body).record = none ∧
      NewBloomskyFromBody now1 body = NewBloomskyFromBody now2 body) := by
  cases hj : jsonUnmarshal body with
  | error err =>
    right
    rw [NewBloomskyFromBody_of_error now1 body err hj,
      NewBloomskyFromBody_of_error now2 body err hj]
    exact ⟨rfl, rfl⟩
  | ok bs =>
    cases bs with
    | nil =>
      right
      rw [NewBloomskyFromBody_of_nil now1 body hj, NewBloomskyFromBody_of_nil now2 body hj]
      exact ⟨rfl, rfl⟩
    | cons first others =>
      left
      exact ⟨_, _, NewBloomskyFromBody_of_cons now1 body first others hj,
        NewBloomskyFromBody_of_cons now2 body first others hj, rfl, rfl, rfl⟩

/-- Claim C9.  `NewBloomskyFromBody` changes only the nine derived fields and
`LastCall` of the element `json.Unmarshal` delivered: every other field of the
record returned, top-level, `Storm` and `Data`, is the parsed value itself, with no
rounding applied, and `LastCall` is the clock reading. -/
theorem vendor_fields_unchanged (now : String) (body : Payload)
    (first : BloomskyStructure) (others : List BloomskyStructure)
    (h : jsonUnmarshal body = .ok (first :: others)) :
    ∃ r, NewBloomskyFromBody now body = .returned r ∧ r.LastCall = now ∧
      (r.Data.TemperatureF = first.Data.TemperatureF ∧ r.Data.Pressure = first.Data.Pressure ∧
       r.Data.Humidity = first.Data.Humidity ∧ r.Data.Luminance = first.Data.Luminance ∧
       r.Data.UVIndex = first.Data.UVIndex ∧ r.Data.TS = first.Data.TS ∧
       r.Data.Rain = first.Data.Rain ∧ r.Data.Night = first.Data.Night ∧
       r.Data.ImageURL = first.Data.ImageURL ∧ r.Data.DeviceType = first.Data.DeviceType ∧
       r.Data.Voltage = first.Data.Voltage ∧ r.Data.ImageTS = first.Data.ImageTS) ∧
      (r.Storm.WindGust = first.Storm.WindGust ∧
       r.Storm.SustainedWindSpeed = first.Storm.SustainedWindSpeed ∧
       r.Storm.RainDaily = first.Storm.RainDaily ∧ r.Storm.RainRate = first.Storm.RainRate ∧
       r.Storm.Rainin = first.Storm.Rainin ∧ r.Storm.WindDirection = first.Storm.WindDirection ∧
       r.Storm.UVIndex = first.Storm.UVIndex ∧ r.Storm.Rain = first.Storm.Rain) ∧
      (r.UTC = first.UTC ∧ r.CityName = first.CityName ∧ r.Searchable = first.Searchable ∧
       r.DeviceName = first.DeviceName ∧ r.RegisterTime = first.RegisterTime ∧
       r.DST = first.DST ∧ r.BoundedPoint = first.BoundedPoint ∧ r.LON = first.LON ∧
       r.Point = first.Point ∧ r.VideoList = first.VideoList ∧
       r.VideoListC = first.VideoListC ∧ r.DeviceID = first.DeviceID ∧
       r.NumOfFollowers = first.NumOfFollowers ∧ r.LAT = first.LAT ∧ r.ALT = first.ALT ∧
       r.FullAddress = first.FullAddress ∧ r.StreetName = first.StreetName ∧
       r.PreviewImageList = first.PreviewImageList) :=
  ⟨_, NewBloomskyFromBody_of_cons now body first others h, rfl,
    ⟨rfl, rfl, rfl, rfl, rfl, rfl, rfl, rfl, rfl, rfl, rfl, rfl⟩,
    ⟨rfl, rfl, rfl, rfl, rfl, rfl, rfl, rfl⟩,
    ⟨rfl, rfl, rfl, rfl, rfl, rfl, rfl, rfl, rfl, rfl, rfl, rfl, rfl, rfl, rfl, rfl, rfl, rfl⟩⟩

/-- Claim C9, at `sampleBody`: the temperature `98.6` and the gust `10.5` come back
as parsed. -/
theorem vendor_fields_unchanged_witness :
    jsonUnmarshal sampleBody = .ok (decodedFirst sampleBody :: (decoded sampleBody).tail) ∧
    ((NewBloomskyFromBody "2024-01-01 00:00:00" sampleBody).record.map fun r =>
      (r.Data.TemperatureF, r.Storm.WindGust, r.CityName, r.LastCall)) =
      some (F64.lit false 986 (-1), F64.lit false 105 (-1), "Gent", "2024-01-01 00:00:00") ∧
    ∃ r, NewBloomskyFromBody "2024-01-01 00:00:00" sampleBody = .returned r ∧
      r.LastCall = "2024-01-01 00:00:00" ∧
      r.Data.TemperatureF = (decodedFirst sampleBody).Data.TemperatureF ∧
      r.Storm.WindGust = (decodedFirst sampleBody).Storm.WindGust ∧
      r.CityName = (decodedFirst sampleBody).CityName := by
  have h := jsonUnmarshal_cons sampleBody (by decide!) (by decide!)
  obtain ⟨r, hr, hl, hd, hs, ht⟩ := vendor_fields_unchanged "2024-01-01 00:00:00" sampleBody
    (decodedFirst sampleBody) (decoded sampleBody).tail h
  exact ⟨h, by decide!, r, hr, hl, hd.1, hs.1, ht.2.1⟩

/-- Claim C10.  `NewBloomskyFromBody` indexes element 0 without a length check.  For
every body that `json.Unmarshal` accepts, giving the slice `infos` (as long as the
JSON array): an empty slice makes the index panic and no record is returned; a
non-empty one makes the call return its first element with the units derived and
the time stamp set, and that element is the decoding of the first array element
alone.  The bodies `[]` and `null` give the empty slice, hence the panic. -/
theorem first_element_only (now : String) (body : Payload) (infos : List BloomskyStructure)
    (h : jsonUnmarshal body = .ok infos) :
    (infos = [] → NewBloomskyFromBody now body = .panic ∧
      (NewBloomskyFromBody now body).record = none) ∧
    (∀ first others, infos = first :: others →
      NewBloomskyFromBody now body = .returned { deriveUnits first with LastCall := now }) ∧
    (∀ xs, body = .text (.arr xs) → infos.length = xs.length) ∧
    (∀ v vs, body = .text (.arr (v :: vs)) →
      ∃ first, decodeStruct BloomskyStructure.setField BloomskyStructure.zero v = .ok first ∧
        NewBloomskyFromBody now body = .returned { deriveUnits first with LastCall := now }) ∧
    NewBloomskyFromBody now (.text (.arr [])) = .panic ∧
    NewBloomskyFromBody now (.text .null) = .panic := by
  refine ⟨?_, ?_, ?_, ?_, NewBloomskyFromBody_of_nil now _ rfl,
    NewBloomskyFromBody_of_nil now _ rfl⟩
  · intro he
    subst he
    rw [NewBloomskyFromBody_of_nil now body h]
    exact ⟨rfl, rfl⟩
  · intro first others he
    subst he
    exact NewBloomskyFromBody_of_cons now body first others h
  · intro xs hb
    subst hb
    exact decodeSnapshots_length xs infos h
  · intro v vs hb
    subst hb
    obtain ⟨first, others, he, hd⟩ := decodeSnapshots_head v vs infos h
    subst he
    exact ⟨first, hd, NewBloomskyFromBody_of_cons now _ first others h⟩

/-- Claim C10, at `sampleBodyTwo`, an array of two objects: the record returned is
that of the first one (`CityName = "Gent"`, not `"Brugge"`). -/
theorem first_element_only_witness :
    jsonUnmarshal sampleBodyTwo = .ok (decoded sampleBodyTwo) ∧
    (decoded sampleBodyTwo).length = 2 ∧
    ((NewBloomskyFromBody "2024-01-01 00:00:00" sampleBodyTwo).record.map fun r =>
      (r.CityName, r.Data.TemperatureC)) = some ("Gent", F64.lit false 37 0) ∧
    (∀ first others, decoded sampleBodyTwo = first :: others →
      NewBloomskyFromBody "2024-01-01 00:00:00" sampleBodyTwo =
        .returned { deriveUnits first with LastCall := "2024-01-01 00:00:00" }) :=
  ⟨jsonUnmarshal_eq_decoded sampleBodyTwo (by decide!), by decide!, by decide!,
    (first_element_only "2024-01-01 00:00:00" sampleBodyTwo (decoded sampleBodyTwo)
      (jsonUnmarshal_eq_decoded sampleBodyTwo (by decide!))).2.1⟩

end Bloomsky
